import Mathlib

/-!
Verification of the vibe-cpc pseudocode interpreter (a tree-walking
interpreter for CAIE-style teaching pseudocode written in TypeScript).

This file gives a shallow embedding, in Lean 4, of the parts of the
interpreter that the verified claims are about:

* the runtime value model (JavaScript values idealised: numbers are exact
  fractions, objects live in an explicit heap so that JavaScript reference
  semantics and aliasing are captured);
* the typed variable-atom layer (validation of values against declared
  pseudocode types, constant flags);
* the parent-chained `Environment` (modelled as an arena of scopes indexed
  by natural numbers, because scopes are shared by reference in the source);
* the `Evaluator` (statement execution, expression evaluation, call frames,
  the FOR loop, the call protocol), written as a fuel-indexed interpreter;
* the array element access helpers and the binary operator dispatch;
* the `Lexer` (character-by-character scanner); and
* the statement-level skeleton of the `Parser` including its error
  catch / resynchronize / rethrow path.

Every definition is translated from the TypeScript source.  JavaScript
semantics that the source relies on are modelled explicitly and noted in
comments at the point of use (e.g. a `switch` statement executes the first
matching `case`, so a duplicated case label is dead code; `%` is the
truncated remainder; object values are references).  Numbers are modelled
as exact fractions: all concrete programs considered here compute only
values on which IEEE doubles are exact.
-/

set_option linter.unusedVariables false

namespace VibeCpc

-- Results of fallible operations are compared in theorem statements.
deriving instance DecidableEq for Except

/-! ### Exact numbers

JavaScript numbers are idealised as exact fractions `n / d` with a positive
denominator.  Fractions are not kept normalised; instead every operation
that observes a number (comparison, equality, integrality, printing) is
value-based, exactly as the arithmetic of the interpreter demands.  The
projection `Q.toRat` into Mathlib rationals is used by theorem statements
to connect results to mathematical `⌊·⌋`. -/

structure Q where
  n : ℤ
  d : ℤ
  deriving DecidableEq, Repr

instance (k : Nat) : OfNat Q k := ⟨⟨k, 1⟩⟩

def qOfInt (i : ℤ) : Q := ⟨i, 1⟩

def qNeg (x : Q) : Q := ⟨-x.n, x.d⟩

instance : Neg Q := ⟨qNeg⟩

def qAdd (x y : Q) : Q := ⟨x.n * y.d + y.n * x.d, x.d * y.d⟩

def qSub (x y : Q) : Q := ⟨x.n * y.d - y.n * x.d, x.d * y.d⟩

def qMul (x y : Q) : Q := ⟨x.n * y.n, x.d * y.d⟩

/-- Division of fractions, keeping the denominator positive.  The divisor
is never zero at the call sites (the interpreter guards against zero
denominators before dividing); the zero case is defined arbitrarily. -/
def qDiv (x y : Q) : Q :=
  if y.n = 0 then ⟨0, 1⟩
  else if 0 ≤ y.n then ⟨x.n * y.d, x.d * y.n⟩
  else ⟨-(x.n * y.d), x.d * (-y.n)⟩

def qLtB (x y : Q) : Bool := decide (x.n * y.d < y.n * x.d)

def qLeB (x y : Q) : Bool := decide (x.n * y.d ≤ y.n * x.d)

def qEqB (x y : Q) : Bool := decide (x.n * y.d = y.n * x.d)

def qIsZero (x : Q) : Bool := decide (x.n = 0)

/-- `Math.floor` (for a positive denominator, Euclidean division by a
positive integer is floor division). -/
def qFloor (x : Q) : ℤ := x.n / x.d

def qCeil (x : Q) : ℤ := -qFloor (qNeg x)

/-- Truncation toward zero (the rounding used by the JavaScript `%`
operator on finite numbers). -/
def qTrunc (x : Q) : ℤ := if 0 ≤ x.n then qFloor x else qCeil x

/-- `Number.isInteger`. -/
def qIsInt (x : Q) : Bool := decide (x.n % x.d = 0)

def qAbs (x : Q) : Q := ⟨|x.n|, x.d⟩

/-- Valuation into Mathlib rationals (for theorem statements only). -/
def Q.toRat (x : Q) : ℚ := (x.n : ℚ) / (x.d : ℚ)

/-- The JavaScript remainder `a % b` for finite `a` and nonzero `b`:
`a - b * trunc(a / b)`; the result takes the sign of the dividend. -/
def jsRem (a b : Q) : Q :=
  qSub a (qMul b (qOfInt (qTrunc (qDiv a b))))

/-! ### Errors -/

/-- Runtime error taxonomy.  The error classes themselves live in
`src/errors.ts`, which is not part of the provided sources; the constructors
below are modelled from the throw sites in the provided sources and from the
taxonomy in the specification (Syntax, Runtime, File-I/O, Division-by-zero,
Index-out-of-bounds, plus the generic base error).  Messages interpolate
names without the surrounding quote characters of the originals; source
positions are kept only where a claim could observe them. -/
inductive PError where
  | runtime (msg : String)
  | synErr (msg : String) (line : Nat) (col : Nat)
  | divByZero
  | indexErr (msg : String)
  | fileErr (msg : String)
  | generic (msg : String)
  deriving DecidableEq, Repr

/-- The message carried by an error (`(error as any).message`).  The
`DivisionByZeroError` class is outside the provided sources; its message is
modelled from the specification name of the error kind. -/
def errMessage : PError → String
  | .runtime m => m
  | .synErr m _ _ => m
  | .divByZero => "Division by zero"
  | .indexErr m => m
  | .fileErr m => m
  | .generic m => m

/-! ### JavaScript values -/

/-- JavaScript runtime values as used by the interpreter.  Numbers are
idealised as exact fractions with a separate `nan` marker; `ref` is a
reference into the object heap (JavaScript arrays and plain objects are
passed by reference); `date` stands for a `Date` object (milliseconds). -/
inductive JSVal where
  | num (q : Q)
  | nan
  | str (s : String)
  | bool (b : Bool)
  | ref (addr : Nat)
  | undef
  | null
  | date (ms : ℤ)
  deriving DecidableEq, Repr

/-- Heap objects: JavaScript arrays and plain objects (records). -/
inductive Obj where
  | arr (elems : List JSVal)
  | record (fields : List (String × JSVal))
  deriving DecidableEq, Repr

/-- `typeof` on the modelled values. -/
def typeofStr : JSVal → String
  | .num _ => "number"
  | .nan => "number"
  | .str _ => "string"
  | .bool _ => "boolean"
  | .ref _ => "object"
  | .undef => "undefined"
  | .null => "object"
  | .date _ => "object"

/-- `typeof v === "object"` (true for objects, `null` and `Date`). -/
def typeofIsObject (v : JSVal) : Bool :=
  typeofStr v = "object"

/-- Decimal digits of a fractional part (used only to print non-integral
numbers; every number printed by a theorem below is an integer).  The
argument satisfies `0 ≤ q < 1`. -/
def fracDigits : Nat → Q → String
  | 0, _ => ""
  | fuel + 1, q =>
    if q.n = 0 then ""
    else
      let q10 := qMul q 10
      let d := qFloor q10
      (Nat.toDigits 10 d.toNat).asString ++ fracDigits fuel (qSub q10 (qOfInt d))

/-- `String(x)` for a number `x`.  Exact on integers (the only case the
theorems exercise); non-integral fractions are printed by finite decimal
expansion, which agrees with JavaScript on the decadic literals used in
this development. -/
def numToString (q : Q) : String :=
  if qIsInt q then toString (qFloor q)
  else
    let sign := if qLtB q 0 then "-" else ""
    let a := qAbs q
    sign ++ toString (qFloor a) ++ "." ++ fracDigits 30 (qSub a (qOfInt (qFloor a)))

/-- Accumulate the value of a digit string; `none` when a non-digit is hit
or the string is empty. -/
def digitsVal : List Char → Option ℕ → Option ℕ
  | [], acc => acc
  | c :: cs, acc =>
    if c.isDigit then
      digitsVal cs (some ((acc.getD 0) * 10 + (c.toNat - 48)))
    else none

/-- Parse an unsigned decimal numeral (digits, optionally followed by a
point and digits). -/
def parseUnsignedDec (cs : List Char) : Option Q :=
  match cs.span (·.isDigit) with
  | (intPart, rest) =>
    match rest with
    | [] =>
      (digitsVal intPart none).map (fun k => qOfInt k)
    | '.' :: fracPart =>
      match digitsVal intPart none, digitsVal fracPart none with
      | some i, some f =>
        some ⟨(i : ℤ) * 10 ^ fracPart.length + f, 10 ^ fracPart.length⟩
      | some i, none => if fracPart = [] then some (qOfInt i) else none
      | none, some f => some ⟨f, 10 ^ fracPart.length⟩
      | none, none => none
    | _ => none

/-- Strip leading and trailing whitespace (the trimming performed by the
JavaScript `Number()` conversion). -/
def trimChars (cs : List Char) : List Char :=
  ((cs.dropWhile Char.isWhitespace).reverse.dropWhile Char.isWhitespace).reverse

/-- `Number(s)` on a string: the empty/whitespace string converts to `0`, a
plain decimal numeral to its value, anything else to `NaN` (`none`).
Exponent and hexadecimal forms are not modelled (never exercised). -/
def jsStringToNumber (s : String) : Option Q :=
  let t := trimChars s.data
  if t = [] then some 0
  else
    match t with
    | '-' :: cs => (parseUnsignedDec cs).map qNeg
    | '+' :: cs => parseUnsignedDec cs
    | cs => parseUnsignedDec cs

/-- `Number(v)`: numeric coercion; `none` stands for `NaN`.  Object
coercion (`Number(someArray)`) is not modelled and yields `none`; it is
never exercised. -/
def jsToNumber : JSVal → Option Q
  | .num q => some q
  | .nan => none
  | .bool b => some (if b then 1 else 0)
  | .str s => jsStringToNumber s
  | .undef => none
  | .null => some 0
  | .ref _ => none
  | .date ms => some (qOfInt ms)

/-- `String(v)`.  The object case (`[object Object]` / array join) is a
placeholder, never exercised by the theorems. -/
def jsString : JSVal → String
  | .num q => numToString q
  | .nan => "NaN"
  | .str s => s
  | .bool b => if b then "true" else "false"
  | .ref _ => "[object Object]"
  | .undef => "undefined"
  | .null => "null"
  | .date ms => "Date " ++ toString ms

/-- `Evaluator.isTruthy`: `null`/`undefined` are false, booleans are
themselves, a number is truthy iff it is `!== 0` (note the source makes
`NaN` truthy because `NaN !== 0`), a string is truthy iff nonempty, every
other value (objects) is truthy. -/
def isTruthy : JSVal → Bool
  | .null => false
  | .undef => false
  | .bool b => b
  | .num q => !qIsZero q
  | .nan => true
  | .str s => decide (s.length > 0)
  | _ => true

/-- The `+` case of `Evaluator.evaluateBinaryExpression`: string
concatenation when either operand is a string, otherwise numeric addition
(`NaN` absorbing). -/
def jsAdd (l r : JSVal) : JSVal :=
  if typeofStr l = "string" ∨ typeofStr r = "string" then
    .str (jsString l ++ jsString r)
  else
    match jsToNumber l, jsToNumber r with
    | some a, some b => .num (qAdd a b)
    | _, _ => .nan

/-- `Number(l) - Number(r)`. -/
def jsSub (l r : JSVal) : JSVal :=
  match jsToNumber l, jsToNumber r with
  | some a, some b => .num (qSub a b)
  | _, _ => .nan

/-- `Number(l) * Number(r)`. -/
def jsMul (l r : JSVal) : JSVal :=
  match jsToNumber l, jsToNumber r with
  | some a, some b => .num (qMul a b)
  | _, _ => .nan

/-- `Number(l) < Number(r)`; any comparison involving `NaN` is false. -/
def jsLtB (l r : JSVal) : Bool :=
  match jsToNumber l, jsToNumber r with
  | some a, some b => qLtB a b
  | _, _ => false

/-- `Number(l) > Number(r)`. -/
def jsGtB (l r : JSVal) : Bool :=
  match jsToNumber l, jsToNumber r with
  | some a, some b => qLtB b a
  | _, _ => false

/-- `Number(l) <= Number(r)`. -/
def jsLeB (l r : JSVal) : Bool :=
  match jsToNumber l, jsToNumber r with
  | some a, some b => qLeB a b
  | _, _ => false

/-- `Number(l) >= Number(r)`. -/
def jsGeB (l r : JSVal) : Bool :=
  match jsToNumber l, jsToNumber r with
  | some a, some b => qLeB b a
  | _, _ => false


/-! ### Array element access (`Evaluator.getArrayElementFromValue`,
`Evaluator.setArrayElementInValue`)

Arrays are heap objects; the getter receives the element list of the array
object being read, the setter receives the heap address of the array object
being written (the source mutates the JavaScript array in place).  Indices
arrive as runtime values, exactly as the evaluator passes them. -/

/-- `array[i]` for a computed numeric subscript `i`: only a non-negative
integral subscript addresses an element; everything else (including a hole
of a sparse array, which is how `createEmptyArray` fills fresh arrays)
reads as `undefined`. -/
def jsElemAt (array : List JSVal) (i : Q) : JSVal :=
  if qIsInt i ∧ 0 ≤ qFloor i then array.getD (qFloor i).toNat .undef else (.undef)

/-- `array[i] = v` for a subscript already known to satisfy the 1-based
bounds check: an integral subscript updates the element; a non-integral
subscript would create a non-index property in JavaScript, modelled as a
no-op (never exercised). -/
def jsElemSet (array : List JSVal) (i : Q) (v : JSVal) : List JSVal :=
  if qIsInt i ∧ 0 ≤ qFloor i then array.set (qFloor i).toNat v else array

/-- `Evaluator.getArrayElementFromValue`: for a single index, the bounds
check is `index < 1 || index > array.length` — 1-based with respect to the
underlying storage, not the declared lower bound — and on success the
element at offset `index - 1` is returned.  For several indices the first
index selects a sub-array (which must itself be an array object; anything
else crashes in JavaScript, modelled as a generic error) and the rest
recurse.  An empty index list cannot be produced by the evaluator. -/
def getArrayElementFromValue (store : List Obj) : List JSVal → List JSVal → Except PError JSVal
  | array, [index] =>
    if jsLtB index (.num 1) || jsGtB index (.num (qOfInt array.length)) then
      .error (.indexErr ("Array index out of bounds: " ++ jsString index))
    else
      .ok (match jsToNumber index with
           | some q => jsElemAt array (qSub q 1)
           | none => .undef)
  | array, index :: rest =>
    match (match jsToNumber index with
           | some q => jsElemAt array (qSub q 1)
           | none => .undef) with
    | .ref a =>
      match store.get? a with
      | some (.arr sub) => getArrayElementFromValue store sub rest
      | _ => .error (.generic "TypeError: sub-array expected")
    | _ => .error (.generic "TypeError: sub-array expected")
  | _, [] => .error (.generic "array access with no indices")

/-- `Evaluator.setArrayElementInValue`: same bounds rule as the getter; on
success the element at offset `index - 1` of the array object at `addr` is
replaced. -/
def setArrayElementInValue (store : List Obj) (addr : Nat) : List JSVal → JSVal → Except PError (List Obj)
  | [index], value =>
    match store.get? addr with
    | some (.arr array) =>
      if jsLtB index (.num 1) || jsGtB index (.num (qOfInt array.length)) then
        .error (.indexErr ("Array index out of bounds: " ++ jsString index))
      else
        .ok (store.set addr (.arr (match jsToNumber index with
                                   | some q => jsElemSet array (qSub q 1) value
                                   | none => array)))
    | _ => .error (.generic "TypeError: array object expected")
  | index :: rest, value =>
    match store.get? addr with
    | some (.arr array) =>
      match (match jsToNumber index with
             | some q => jsElemAt array (qSub q 1)
             | none => .undef) with
      | .ref a => setArrayElementInValue store a rest value
      | _ => .error (.generic "TypeError: sub-array expected")
    | _ => .error (.generic "TypeError: array object expected")
  | [], _ => .error (.generic "array access with no indices")

/-! ### Equality and the binary operator dispatch -/

/-- JavaScript strict equality `===`: value equality for primitives
(`NaN !== NaN`), address identity for object references. -/
def jsStrictEq : JSVal → JSVal → Bool
  | .nan, _ => false
  | _, .nan => false
  | .num a, .num b => qEqB a b
  | .str a, .str b => a = b
  | .bool a, .bool b => a = b
  | .ref a, .ref b => a = b
  | .undef, .undef => true
  | .null, .null => true
  | .date a, .date b => a = b
  | _, _ => false

mutual

/-- `Evaluator.isEqual`: strict equality first; numbers compare with a
`1e-10` tolerance; arrays compare element-wise; plain objects compare by
key sets and field values.  Mixed array/object comparison is not modelled
(never exercised).  The fuel bounds nesting depth. -/
def isEqual (store : List Obj) : Nat → JSVal → JSVal → Bool
  | 0, _, _ => false
  | fuel + 1, a, b =>
    if jsStrictEq a b then true
    else if typeofStr a = "number" && typeofStr b = "number" then
      match a, b with
      | .num qa, .num qb => qLtB (qAbs (qSub qa qb)) ⟨1, 10000000000⟩
      | _, _ => false
    else
      match a, b with
      | .ref x, .ref y =>
        match store.get? x, store.get? y with
        | some (.arr la), some (.arr lb) =>
          decide (la.length = lb.length) && isEqualArr store fuel la lb
        | some (.record fa), some (.record fb) =>
          decide (fa.length = fb.length) && isEqualRec store fuel fa fb
        | _, _ => false
      | _, _ => false

/-- Element-wise array comparison used by `isEqual`. -/
def isEqualArr (store : List Obj) : Nat → List JSVal → List JSVal → Bool
  | _, [], _ => true
  | _, _ :: _, [] => false
  | 0, _ :: _, _ :: _ => false
  | fuel + 1, x :: xs, y :: ys =>
    isEqual store fuel x y && isEqualArr store fuel xs ys

/-- Field-wise object comparison used by `isEqual` (for every key of the
first object, the second must have the key with an equal value). -/
def isEqualRec (store : List Obj) : Nat → List (String × JSVal) → List (String × JSVal) → Bool
  | _, [], _ => true
  | 0, _ :: _, _ => false
  | fuel + 1, (k, v) :: rest, fb =>
    (match fb.lookup k with
     | some w => isEqual store fuel v w
     | none => false) && isEqualRec store fuel rest fb

end

/-- The operator dispatch of `Evaluator.evaluateBinaryExpression` (the
operand evaluation happens in the evaluator; source positions carried by
`DivisionByZeroError` are dropped).  Cases appear in source order; `/`,
`DIV` and `MOD` raise Division-by-zero when the right operand converts to
the number 0, `DIV` floors the true quotient, `MOD` is the JavaScript `%`
(truncated remainder). -/
def evaluateBinaryOp (store : List Obj) (op : String) (left right : JSVal) : Except PError JSVal :=
  if op = "+" then .ok (jsAdd left right)
  else if op = "&" then .ok (.str (jsString left ++ jsString right))
  else if op = "-" then .ok (jsSub left right)
  else if op = "*" then .ok (jsMul left right)
  else if op = "/" then
    if (jsToNumber right).elim false qIsZero then .error .divByZero
    else .ok (match jsToNumber left, jsToNumber right with
              | some a, some b => .num (qDiv a b)
              | _, _ => .nan)
  else if op = "DIV" then
    if (jsToNumber right).elim false qIsZero then .error .divByZero
    else .ok (match jsToNumber left, jsToNumber right with
              | some a, some b => .num (qOfInt (qFloor (qDiv a b)))
              | _, _ => .nan)
  else if op = "MOD" then
    if (jsToNumber right).elim false qIsZero then .error .divByZero
    else .ok (match jsToNumber left, jsToNumber right with
              | some a, some b => .num (jsRem a b)
              | _, _ => .nan)
  else if op = "=" then .ok (.bool (isEqual store (store.length + 2) left right))
  else if op = "<>" then .ok (.bool (!isEqual store (store.length + 2) left right))
  else if op = "<" then .ok (.bool (jsLtB left right))
  else if op = ">" then .ok (.bool (jsGtB left right))
  else if op = "<=" then .ok (.bool (jsLeB left right))
  else if op = ">=" then .ok (.bool (jsGeB left right))
  else if op = "AND" then .ok (.bool (isTruthy left && isTruthy right))
  else if op = "OR" then .ok (.bool (isTruthy left || isTruthy right))
  else .error (.runtime ("Unknown binary operator: " ++ op))

/-- The operator dispatch of `Evaluator.evaluateUnaryExpression`. -/
def evaluateUnaryOp (op : String) (operand : JSVal) : Except PError JSVal :=
  if op = "-" then
    .ok (match jsToNumber operand with
         | some q => .num (qNeg q)
         | none => .nan)
  else if op = "NOT" then .ok (.bool (!isTruthy operand))
  else .error (.runtime ("Unknown unary operator: " ++ op))

/-! ### Pseudocode types (`src/types/index.ts`) -/

inductive SimpleType where
  | INTEGER | REAL | CHAR | STRING | BOOLEAN | DATE
  deriving DecidableEq, Repr

/-- `ArrayBound`: the declared `lower:upper` bounds of one dimension. -/
structure ArrayBound where
  lower : ℤ
  upper : ℤ
  deriving DecidableEq, Repr

/-- `ArrayTypeInfo`. -/
structure ArrayTypeInfo where
  elementType : SimpleType
  bounds : List ArrayBound
  deriving DecidableEq, Repr

/-- A record field is a simple type or an array type. -/
inductive FieldType where
  | simple (t : SimpleType)
  | arrayInfo (a : ArrayTypeInfo)
  deriving DecidableEq, Repr

/-- `UserDefinedTypeInfo` (field table as an association list). -/
structure UserDefinedTypeInfo where
  name : String
  fields : List (String × FieldType)
  deriving DecidableEq, Repr

/-- `PseudocodeType | ArrayTypeInfo | UserDefinedTypeInfo`, the union used
for declared variable types. -/
inductive PType where
  | simple (t : SimpleType)
  | arrayInfo (a : ArrayTypeInfo)
  | user (u : UserDefinedTypeInfo)
  deriving DecidableEq, Repr

def simpleTypeName : SimpleType → String
  | .INTEGER => "INTEGER"
  | .REAL => "REAL"
  | .CHAR => "CHAR"
  | .STRING => "STRING"
  | .BOOLEAN => "BOOLEAN"
  | .DATE => "DATE"

/-! ### Variable atoms (`src/runtime/variable-atoms.ts`)

The class-per-variant hierarchy is flattened into one record plus
validation keyed on the declared type; `VariableAtomFactory.createAtom`
constructs the variant whose own `validateValue` then runs, which is
exactly the dispatch below. -/

/-- The per-class `validateValue` of the scalar atom classes
(`IntegerAtom.validateValue` etc.). -/
def validateValueSimple (value : JSVal) (t : SimpleType) : Except PError Unit :=
  match t with
  | .INTEGER =>
    match value with
    | .num q => if qIsInt q then .ok () else .error (.runtime ("Expected INTEGER, got " ++ typeofStr value))
    | _ => .error (.runtime ("Expected INTEGER, got " ++ typeofStr value))
  | .REAL =>
    match value with
    | .num _ => .ok ()
    | .nan => .ok ()
    | _ => .error (.runtime ("Expected REAL, got " ++ typeofStr value))
  | .CHAR =>
    match value with
    | .str s => if s.length = 1 then .ok () else .error (.runtime ("Expected CHAR (single character), got " ++ typeofStr value))
    | _ => .error (.runtime ("Expected CHAR (single character), got " ++ typeofStr value))
  | .STRING =>
    match value with
    | .str _ => .ok ()
    | _ => .error (.runtime ("Expected STRING, got " ++ typeofStr value))
  | .BOOLEAN =>
    match value with
    | .bool _ => .ok ()
    | _ => .error (.runtime ("Expected BOOLEAN, got " ++ typeofStr value))
  | .DATE =>
    match value with
    | .date _ => .ok ()
    | _ => .error (.runtime ("Expected DATE, got " ++ typeofStr value))

/-- The private `validateSimpleType` helper shared by `ArrayAtom` and
`UserDefinedAtom` (slightly different messages from the scalar atoms). -/
def validateSimpleType (value : JSVal) (expectedType : SimpleType) : Except PError Unit :=
  match expectedType with
  | .INTEGER =>
    match value with
    | .num q => if qIsInt q then .ok () else .error (.runtime ("Expected INTEGER, got " ++ typeofStr value))
    | _ => .error (.runtime ("Expected INTEGER, got " ++ typeofStr value))
  | .REAL =>
    match value with
    | .num _ => .ok ()
    | .nan => .ok ()
    | _ => .error (.runtime ("Expected REAL, got " ++ typeofStr value))
  | .CHAR =>
    match value with
    | .str s => if s.length = 1 then .ok () else .error (.runtime ("Expected CHAR, got " ++ typeofStr value))
    | _ => .error (.runtime ("Expected CHAR, got " ++ typeofStr value))
  | .STRING =>
    match value with
    | .str _ => .ok ()
    | _ => .error (.runtime ("Expected STRING, got " ++ typeofStr value))
  | .BOOLEAN =>
    match value with
    | .bool _ => .ok ()
    | _ => .error (.runtime ("Expected BOOLEAN, got " ++ typeofStr value))
  | .DATE =>
    match value with
    | .date _ => .ok ()
    | _ => .error (.runtime ("Expected DATE, got " ++ typeofStr value))

/-- `ArrayAtom.getArrayDimensions`: 1 for an empty or non-nested array,
otherwise one more than the dimensions of the first element.  The fuel
bounds heap-chasing depth (the arenas built here are acyclic). -/
def getArrayDimensions (store : List Obj) : Nat → List JSVal → Nat
  | _, [] => 1
  | 0, _ :: _ => 1
  | fuel + 1, x :: _ =>
    match x with
    | .ref a =>
      match store.get? a with
      | some (.arr sub) => 1 + getArrayDimensions store fuel sub
      | _ => 1
    | _ => 1

mutual

/-- `ArrayAtom.validateArrayBoundsRecursive`: the source compares the
*length* of each nesting level against that dimension of the declared
`lower:upper` bounds. -/
def validateArrayBoundsRec (store : List Obj) : Nat → List JSVal → Nat → ArrayTypeInfo → Except PError Unit
  | 0, _, _, _ => .error (.generic "heap nesting too deep")
  | fuel + 1, array, dimension, info =>
    match info.bounds.get? dimension with
    | none => .ok ()
    | some bound =>
      if (array.length : ℤ) < bound.lower || (array.length : ℤ) > bound.upper then
        .error (.runtime ("Array dimension " ++ toString (dimension + 1) ++ " has " ++
          toString array.length ++ " elements, expected between " ++ toString bound.lower ++
          " and " ++ toString bound.upper))
      else if dimension < info.bounds.length - 1 then
        validateArrayBoundsList store fuel array dimension info
      else .ok ()

/-- Iterate `validateArrayBoundsRecursive` over the elements of one level;
a non-array element is a dimension mismatch. -/
def validateArrayBoundsList (store : List Obj) : Nat → List JSVal → Nat → ArrayTypeInfo → Except PError Unit
  | _, [], _, _ => .ok ()
  | 0, _ :: _, _, _ => .error (.generic "heap nesting too deep")
  | fuel + 1, x :: rest, dimension, info =>
    match x with
    | .ref a =>
      match store.get? a with
      | some (.arr sub) => do
        validateArrayBoundsRec store fuel sub (dimension + 1) info
        validateArrayBoundsList store fuel rest dimension info
      | _ => .error (.runtime ("Expected " ++ toString (info.bounds.length - dimension) ++ " more dimensions"))
    | _ => .error (.runtime ("Expected " ++ toString (info.bounds.length - dimension) ++ " more dimensions"))

end

/-- Validate every element of a one-dimensional level. -/
def validateElementsSimple : List JSVal → SimpleType → Except PError Unit
  | [], _ => .ok ()
  | x :: rest, t => do
    validateSimpleType x t
    validateElementsSimple rest t

mutual

/-- `ArrayAtom.validateArrayElements`: at dimension 1 every element must
satisfy the element type, otherwise recurse into sub-arrays. -/
def validateArrayElements (store : List Obj) : Nat → List JSVal → SimpleType → Nat → Except PError Unit
  | 0, _, _, _ => .error (.generic "heap nesting too deep")
  | fuel + 1, array, elementType, dimensions =>
    if dimensions = 1 then validateElementsSimple array elementType
    else validateArrayElementsList store fuel array elementType dimensions

/-- Iterate element validation over one level of sub-arrays. -/
def validateArrayElementsList (store : List Obj) : Nat → List JSVal → SimpleType → Nat → Except PError Unit
  | _, [], _, _ => .ok ()
  | 0, _ :: _, _, _ => .error (.generic "heap nesting too deep")
  | fuel + 1, x :: rest, elementType, dimensions =>
    match x with
    | .ref a =>
      match store.get? a with
      | some (.arr sub) => do
        validateArrayElements store fuel sub elementType (dimensions - 1)
        validateArrayElementsList store fuel rest elementType dimensions
      | _ => .error (.runtime ("Expected " ++ toString dimensions ++ "-dimensional array, got fewer dimensions"))
    | _ => .error (.runtime ("Expected " ++ toString dimensions ++ "-dimensional array, got fewer dimensions"))

end

/-- `ArrayAtom.validateValue`: the value must be an array object; its
nesting depth must match the declared number of dimensions; lengths are
checked against the declared bounds and elements against the element
type. -/
def validateArrayValue (store : List Obj) (info : ArrayTypeInfo) (value : JSVal) : Except PError Unit :=
  match value with
  | .ref a =>
    match store.get? a with
    | some (.arr array) =>
      let expectedDimensions := info.bounds.length
      let actualDimensions := getArrayDimensions store (store.length + 1) array
      if expectedDimensions ≠ actualDimensions then
        .error (.runtime ("Expected " ++ toString expectedDimensions ++ "-dimensional array, got " ++
          toString actualDimensions ++ "-dimensional array"))
      else do
        validateArrayBoundsRec store (store.length + 1) array 0 info
        validateArrayElements store (store.length + 1) array info.elementType expectedDimensions
    | _ => .error (.runtime ("Expected ARRAY, got " ++ typeofStr value))
  | _ => .error (.runtime ("Expected ARRAY, got " ++ typeofStr value))

/-- The named fields of an object value (an array object has no named
fields of its own here; element indices are not field names). -/
def objFields (store : List Obj) : JSVal → Option (List (String × JSVal))
  | .ref a =>
    match store.get? a with
    | some (.record fields) => some fields
    | some (.arr _) => some []
    | none => none
  | .date _ => some []
  | _ => none

/-- `UserDefinedAtom.validateFieldValue`: a simple field type is fully
checked; an array field type only checks that the value is an array (the
source comments that only the first dimension is validated). -/
def validateFieldValue (store : List Obj) (value : JSVal) (fieldType : FieldType) : Except PError Unit :=
  match fieldType with
  | .simple t => validateSimpleType value t
  | .arrayInfo _ =>
    match value with
    | .ref a =>
      match store.get? a with
      | some (.arr _) => .ok ()
      | _ => .error (.runtime ("Expected ARRAY, got " ++ typeofStr value))
    | _ => .error (.runtime ("Expected ARRAY, got " ++ typeofStr value))

/-- Check each declared field of a user-defined type against the object. -/
def validateUserFields (store : List Obj) (u : UserDefinedTypeInfo) (obj : List (String × JSVal)) : List (String × FieldType) → Except PError Unit
  | [] => .ok ()
  | (fieldName, fieldType) :: rest =>
    match obj.lookup fieldName with
    | none => .error (.runtime ("Missing field " ++ fieldName ++ " in user-defined type " ++ u.name))
    | some v => do
      validateFieldValue store v fieldType
      validateUserFields store u obj rest

/-- `UserDefinedAtom.validateValue`. -/
def validateUserValue (store : List Obj) (u : UserDefinedTypeInfo) (value : JSVal) : Except PError Unit :=
  match value with
  | .null => .error (.runtime ("Expected user-defined type " ++ u.name ++ ", got " ++ typeofStr value))
  | _ =>
    match objFields store value with
    | some fields => validateUserFields store u fields u.fields
    | none => .error (.runtime ("Expected user-defined type " ++ u.name ++ ", got " ++ typeofStr value))

/-- Dispatch of validation over the declared type — the combination of
`VariableAtomFactory.createAtom` picking the variant class and that class
validating in its constructor and in its `value` setter. -/
def validateValue (store : List Obj) (t : PType) (value : JSVal) : Except PError Unit :=
  match t with
  | .simple s => validateValueSimple value s
  | .arrayInfo a => validateArrayValue store a value
  | .user u => validateUserValue store u value

/-- A runtime variable atom: declared type, current value, constness. -/
structure VariableAtom where
  type : PType
  value : JSVal
  isConstant : Bool
  deriving DecidableEq, Repr

/-- Atom construction (`VariableAtomFactory.createAtom` followed by the
variant constructor): validate, then store the value (after successful
validation, every `convertValue` returns the value unchanged). -/
def createAtom (store : List Obj) (t : PType) (value : JSVal) (isConstant : Bool) : Except PError VariableAtom := do
  validateValue store t value
  .ok ⟨t, value, isConstant⟩

/-- The `value` setter of `VariableAtom`: a constant atom refuses the
assignment before any validation; otherwise the new value is validated
against the declared type and stored. -/
def atomSetValue (store : List Obj) (a : VariableAtom) (newValue : JSVal) : Except PError VariableAtom :=
  if a.isConstant then .error (.runtime "Cannot assign to constant")
  else do
    validateValue store a.type newValue
    .ok { a with value := newValue }

/-! ### Environment (`src/runtime/environment.ts`, atom-based class)

Scopes are shared by reference in the source (a child keeps a back pointer
to its parent, call frames keep the caller scope), so environments are
modelled as an arena: `Envs` is the list of all scopes ever created and a
scope is addressed by its index.  The walk fuel bounds the parent-chain
length; wrappers pass `envs.length + 1`, enough for any chain in an arena
whose parent indices decrease (which `createChild` guarantees). -/

inductive ParameterMode where
  | BY_VALUE | BY_REFERENCE
  deriving DecidableEq, Repr

structure ParameterInfo where
  name : String
  type : PType
  mode : ParameterMode
  deriving DecidableEq, Repr

structure RoutineSignature where
  name : String
  parameters : List ParameterInfo
  returnType : Option PType
  deriving DecidableEq, Repr

structure EnvData where
  vars : List (String × VariableAtom)
  routines : List (String × RoutineSignature)
  parent : Option Nat
  deriving DecidableEq, Repr

abbrev Envs := List EnvData

/-- Replace the value stored under a key of an association list. -/
def alistSet {α : Type} (l : List (String × α)) (k : String) (v : α) : List (String × α) :=
  l.map (fun p => if p.1 = k then (k, v) else p)

namespace Environment

/-- `Environment.define`: error if the name is already defined in *this*
scope, otherwise create an atom (which validates the value). -/
def define (store : List Obj) (envs : Envs) (i : Nat) (name : String) (type : PType) (value : JSVal) (isConstant : Bool) : Except PError Envs :=
  match envs.get? i with
  | none => .error (.generic "invalid environment index")
  | some e =>
    if (e.vars.lookup name).isSome then
      .error (.runtime ("Variable " ++ name ++ " already declared in this scope"))
    else do
      let atom ← createAtom store type value isConstant
      .ok (envs.set i { e with vars := e.vars ++ [(name, atom)] })

/-- `Environment.get`: resolve outward through the parent chain. -/
def getFuel : Nat → Envs → Nat → String → Except PError JSVal
  | 0, _, _, _ => .error (.generic "scope chain too deep")
  | fuel + 1, envs, i, name =>
    match envs.get? i with
    | none => .error (.generic "invalid environment index")
    | some e =>
      match e.vars.lookup name with
      | some atom => .ok atom.value
      | none =>
        match e.parent with
        | some p => getFuel fuel envs p name
        | none => .error (.runtime ("Undefined variable " ++ name))

def get (envs : Envs) (i : Nat) (name : String) : Except PError JSVal :=
  getFuel (envs.length + 1) envs i name

/-- `Environment.has`. -/
def hasFuel : Nat → Envs → Nat → String → Bool
  | 0, _, _, _ => false
  | fuel + 1, envs, i, name =>
    match envs.get? i with
    | none => false
    | some e =>
      if (e.vars.lookup name).isSome then true
      else
        match e.parent with
        | some p => hasFuel fuel envs p name
        | none => false

def has (envs : Envs) (i : Nat) (name : String) : Bool :=
  hasFuel (envs.length + 1) envs i name

/-- The atom an assignment to `name` would reach (the owner found by the
same outward walk that `Environment.assign` performs). -/
def findAtomFuel : Nat → Envs → Nat → String → Option VariableAtom
  | 0, _, _, _ => none
  | fuel + 1, envs, i, name =>
    match envs.get? i with
    | none => none
    | some e =>
      match e.vars.lookup name with
      | some atom => some atom
      | none =>
        match e.parent with
        | some p => findAtomFuel fuel envs p name
        | none => none

def findAtom (envs : Envs) (i : Nat) (name : String) : Option VariableAtom :=
  findAtomFuel (envs.length + 1) envs i name

/-- `Environment.assign`: walk outward to the owning scope; a constant
refuses the assignment (and the atom setter would refuse it again);
otherwise the atom re-validates and stores the value. -/
def assignFuel : Nat → List Obj → Envs → Nat → String → JSVal → Except PError Envs
  | 0, _, _, _, _, _ => .error (.generic "scope chain too deep")
  | fuel + 1, store, envs, i, name, value =>
    match envs.get? i with
    | none => .error (.generic "invalid environment index")
    | some e =>
      match e.vars.lookup name with
      | some atom =>
        if atom.isConstant then .error (.runtime ("Cannot assign to constant " ++ name))
        else do
          let atom2 ← atomSetValue store atom value
          .ok (envs.set i { e with vars := alistSet e.vars name atom2 })
      | none =>
        match e.parent with
        | some p => assignFuel fuel store envs p name value
        | none => .error (.runtime ("Undefined variable " ++ name))

def assign (store : List Obj) (envs : Envs) (i : Nat) (name : String) (value : JSVal) : Except PError Envs :=
  assignFuel (envs.length + 1) store envs i name value

/-- `Environment.defineRoutine`. -/
def defineRoutine (envs : Envs) (i : Nat) (signature : RoutineSignature) : Except PError Envs :=
  match envs.get? i with
  | none => .error (.generic "invalid environment index")
  | some e =>
    if (e.routines.lookup signature.name).isSome then
      .error (.runtime ("Routine " ++ signature.name ++ " already declared"))
    else
      .ok (envs.set i { e with routines := e.routines ++ [(signature.name, signature)] })

/-- `Environment.getRoutine`: one routine table visible through the scope
chain. -/
def getRoutineFuel : Nat → Envs → Nat → String → Except PError RoutineSignature
  | 0, _, _, _ => .error (.generic "scope chain too deep")
  | fuel + 1, envs, i, name =>
    match envs.get? i with
    | none => .error (.generic "invalid environment index")
    | some e =>
      match e.routines.lookup name with
      | some s => .ok s
      | none =>
        match e.parent with
        | some p => getRoutineFuel fuel envs p name
        | none => .error (.runtime ("Undefined routine " ++ name))

def getRoutine (envs : Envs) (i : Nat) (name : String) : Except PError RoutineSignature :=
  getRoutineFuel (envs.length + 1) envs i name

/-- `Environment.createChild`: a fresh scope parented to the receiver;
returns the new arena and the index of the new scope. -/
def createChild (envs : Envs) (i : Nat) : Envs × Nat :=
  (envs ++ [⟨[], [], some i⟩], envs.length)

end Environment

/-! ### AST (`src/parser/ast-nodes.ts`)

The node kinds exercised by the claims.  Source positions are dropped
(no claim observes them through the evaluator); an expression can appear in
statement position (`assignmentOrExpressionStatement` returns the bare
expression node), modelled by `Stmt.exprStmt`. -/

inductive Expr where
  | lit (value : JSVal)
  | ident (name : String)
  | binary (operator : String) (left : Expr) (right : Expr)
  | unary (operator : String) (operand : Expr)
  | arrayAccess (array : Expr) (indices : List Expr)
  | call (name : String) (args : List Expr)
  | member (obj : Expr) (field : String)
  | newExpr (className : String) (args : List Expr)

inductive Stmt where
  | declare (name : String) (dataType : PType) (isConstant : Bool) (initialValue : Option Expr)
  | assign (target : Expr) (value : Expr)
  | forStmt (loopVar : String) (start : Expr) (stop : Expr) (step : Option Expr) (body : List Stmt)
  | procDecl (name : String) (parameters : List ParameterInfo) (body : List Stmt)
  | funcDecl (name : String) (parameters : List ParameterInfo) (returnType : PType) (body : List Stmt)
  | callStmt (name : String) (args : List Expr)
  | output (expressions : List Expr)
  | ret (value : Option Expr)
  | typeDecl (name : String) (fields : List (String × FieldType))
  | exprStmt (e : Expr)

/-! ### Execution context and machine state -/

/-- A call frame: routine name and the caller environment (the
`returnAddress` source position is dropped). -/
structure CallFrame where
  routineName : String
  environment : Nat
  deriving DecidableEq, Repr

/-- `ExecutionContext`: active environment, return-value slot, the
should-return flag, and the call stack.  In JavaScript an absent return
value and a `RETURN` of no expression are both `undefined`; the slot is
therefore a plain value defaulting to `undef`, exactly as observable. -/
structure ExecutionContext where
  envIdx : Nat
  returnValue : JSVal
  shouldReturn : Bool
  callStack : List CallFrame
  deriving DecidableEq, Repr

/-- `RoutineInfo`: signature plus either a user AST node or a native
built-in implementation. -/
structure RoutineInfo where
  signature : RoutineSignature
  node : Option Stmt
  isBuiltIn : Bool
  impl : Option (List JSVal → JSVal)

/-- The whole evaluator state: the scope arena, the object heap, the
`globalRoutines` map, the active environment (`this.environment`), the
active context (`this.context`), the text written to the I/O collaborator,
and a count of `evaluate()` invocations (the quantity the specification
says is guarded by the step limit). -/
structure Machine where
  envs : Envs
  store : List Obj
  globalRoutines : List (String × RoutineInfo)
  environment : Nat
  context : ExecutionContext
  out : List String
  evalCount : Nat

/-- Evaluation outcome: a thrown runtime error, or fuel exhaustion (the
modelling artifact standing for running longer than the given fuel). -/
inductive EvErr where
  | fuelOut
  | thrown (e : PError)
  deriving DecidableEq, Repr

abbrev EvM (α : Type) := Except EvErr α

def liftE {α : Type} : Except PError α → EvM α
  | .ok a => .ok a
  | .error e => .error (.thrown e)

/-! ### Heap allocation helpers -/

/-- Allocate a fresh plain object. -/
def allocRecord (store : List Obj) (fields : List (String × JSVal)) : JSVal × List Obj :=
  (.ref store.length, store ++ [.record fields])

mutual

/-- `Evaluator.createEmptyArray`: one dimension allocates
`new Array(upper - lower + 1)` (a sparse array, whose holes read as
`undefined`); more dimensions allocate that many sub-arrays recursively.
The fuel is the number of dimensions. -/
def createEmptyArrayF : Nat → List Obj → ArrayTypeInfo → JSVal × List Obj
  | 0, store, _ => (.ref store.length, store ++ [.arr []])
  | fuel + 1, store, arrayType =>
    match arrayType.bounds with
    | [bound] =>
      (.ref store.length, store ++ [.arr (List.replicate (bound.upper - bound.lower + 1).toNat .undef)])
    | bound :: rest =>
      let size := (bound.upper - bound.lower + 1).toNat
      let (elems, store2) := createEmptyArraySubs fuel store ⟨arrayType.elementType, rest⟩ size
      (.ref store2.length, store2 ++ [.arr elems])
    | [] => (.ref store.length, store ++ [.arr []])

/-- Allocate `size` sub-arrays of the given sub-array type. -/
def createEmptyArraySubs : Nat → List Obj → ArrayTypeInfo → Nat → List JSVal × List Obj
  | _, store, _, 0 => ([], store)
  | fuel, store, t, k + 1 =>
    let (v, s2) := createEmptyArrayF fuel store t
    let (vs, s3) := createEmptyArraySubs fuel s2 t k
    (v :: vs, s3)

end

def createEmptyArray (store : List Obj) (arrayType : ArrayTypeInfo) : JSVal × List Obj :=
  createEmptyArrayF (arrayType.bounds.length + 1) store arrayType

/-- The default initial value of `evaluateDeclareStatement` when no
initialiser is given (`new Date()` is modelled as the epoch; never
exercised). -/
def defaultInitialValue (store : List Obj) (dataType : PType) : JSVal × List Obj :=
  match dataType with
  | .simple .INTEGER => (.num 0, store)
  | .simple .REAL => (.num 0, store)
  | .simple .CHAR => (.str "", store)
  | .simple .STRING => (.str "", store)
  | .simple .BOOLEAN => (.bool false, store)
  | .simple .DATE => (.date 0, store)
  | .arrayInfo a => createEmptyArray store a
  | .user u => allocRecord store (u.fields.map (fun f => (f.1, JSVal.null)))

def globalsFind (g : List (String × RoutineInfo)) (name : String) : Option RoutineInfo :=
  g.lookup name

def globalsSet (g : List (String × RoutineInfo)) (name : String) (info : RoutineInfo) : List (String × RoutineInfo) :=
  if (g.lookup name).isSome then alistSet g name info else g ++ [(name, info)]

/-! ### Parameter binding (`Evaluator.evaluateCallExpression`, the
parameter set-up loop)

The source reads

```
if (param.mode === ParameterMode.BY_REFERENCE && typeof arg === 'object') {
  // Pass by reference
  routineEnvironment.define(param.name, param.type, arg);
} else {
  // Pass by value
  routineEnvironment.define(param.name, param.type, arg);
}
```

— both branches are the same call, which `bindParam` reproduces
literally. -/

def bindParam (store : List Obj) (envs : Envs) (idx : Nat) (param : ParameterInfo) (arg : JSVal) : Except PError Envs :=
  if param.mode = ParameterMode.BY_REFERENCE && typeofIsObject arg then
    Environment.define store envs idx param.name param.type arg false
  else
    Environment.define store envs idx param.name param.type arg false

def bindParams (store : List Obj) (envs : Envs) (idx : Nat) : List ParameterInfo → List JSVal → Except PError Envs
  | [], _ => .ok envs
  | p :: ps, argVs => do
    let envs2 ← bindParam store envs idx p (argVs.headD .undef)
    bindParams store envs2 idx ps argVs.tail

/-! ### The evaluator (`Evaluator.evaluate` and friends)

The evaluator is one fuel-indexed recursion.  (A Lean `mutual` block of
fuel-indexed functions does not reduce inside the kernel, so the mutually
recursive pieces of the source — `evaluate` on expressions and statements,
list evaluation, the statement loop, the FOR loop, and the call protocol —
are packed into one function over a task type; each task corresponds to
the source function named in its constructor comment.)  `evaluate()` bumps
`evalCount` once per evaluated node.  Argument lists are evaluated left to
right (the source maps `this.evaluate` over the list under `Promise.all`).
Failures unwind exactly as host exceptions do. -/

inductive EvTask where
  /-- `evaluate` on an expression node -/
  | expr (e : Expr)
  /-- evaluation of a list of expression nodes, left to right -/
  | exprList (es : List Expr)
  /-- `evaluate` on a statement node -/
  | stmt (s : Stmt)
  /-- the statement loop of routine bodies and branches (run each
  statement, stop when the should-return flag is set) -/
  | body (ss : List Stmt)
  /-- `evaluateProgram` (keeps the value of the last statement) -/
  | program (ss : List Stmt) (result : JSVal)
  /-- the loop of `evaluateFor` -/
  | forIter (increment : Bool) (endV : JSVal) (stepV : JSVal) (loopVar : String) (body : List Stmt) (current : JSVal)
  /-- `evaluateCallExpression`, entry (built-in short-circuit) -/
  | callExpr (name : String) (args : List Expr)
  /-- `evaluateCallExpression`, general user-routine path -/
  | userCall (name : String) (args : List Expr)
  /-- the body-execution section of `evaluateCallExpression` -/
  | routineNode (name : String)

/-- A task result: one value, or a list of values (for `exprList`). -/
inductive EvOutVal where
  | val (v : JSVal)
  | vals (vs : List JSVal)

def asVal : EvOutVal × Machine → EvM (JSVal × Machine)
  | (.val v, m) => .ok (v, m)
  | (.vals _, _) => .error (.thrown (.generic "expected a single value"))

def asVals : EvOutVal × Machine → EvM (List JSVal × Machine)
  | (.vals vs, m) => .ok (vs, m)
  | (.val _, _) => .error (.thrown (.generic "expected a value list"))

def evalT : Nat → Machine → EvTask → EvM (EvOutVal × Machine)
  | 0, _, _ => .error .fuelOut
  | fuel + 1, m0, task =>
    match task with
    | .expr e =>
      let m := { m0 with evalCount := m0.evalCount + 1 }
      match e with
      | .lit v => .ok (.val v, m)
      | .ident name => do
        let v ← liftE (Environment.get m.envs m.environment name)
        .ok (.val v, m)
      | .binary operator left right => do
        let (lv, m) ← asVal (← evalT fuel m (.expr left))
        let (rv, m) ← asVal (← evalT fuel m (.expr right))
        let v ← liftE (evaluateBinaryOp m.store operator lv rv)
        .ok (.val v, m)
      | .unary operator operand => do
        let (v0, m) ← asVal (← evalT fuel m (.expr operand))
        let v ← liftE (evaluateUnaryOp operator v0)
        .ok (.val v, m)
      | .arrayAccess arrayExpr idxExprs => do
        let (arrV, m) ← asVal (← evalT fuel m (.expr arrayExpr))
        let (idxVs, m) ← asVals (← evalT fuel m (.exprList idxExprs))
        -- `Evaluator.getArrayElement`: evaluated values are never atoms
        -- here, so only the plain-array branch is reachable.
        match arrV with
        | .ref a =>
          match m.store.get? a with
          | some (.arr l) => do
            let v ← liftE (getArrayElementFromValue m.store l idxVs)
            .ok (.val v, m)
          | _ => .error (.thrown (.runtime "Array access on non-array value"))
        | _ => .error (.thrown (.runtime "Array access on non-array value"))
      | .call name args => evalT fuel m (.callExpr name args)
      | .member objExpr field => do
        let (objV, m) ← asVal (← evalT fuel m (.expr objExpr))
        match objV with
        | .ref a =>
          match m.store.get? a with
          | some (.record fields) => .ok (.val ((fields.lookup field).getD .undef), m)
          | some (.arr _) => .ok (.val .undef, m)
          | none => .ok (.val .undef, m)
        | .date _ => .ok (.val .undef, m)
        | _ => .error (.thrown (.runtime "Cannot access property of non-object"))
      | .newExpr _ _ =>
        -- `evaluateNewExpression`: a fresh empty object, nothing else runs.
        let (v, store2) := allocRecord m.store []
        .ok (.val v, { m with store := store2 })
    | .exprList es =>
      match es with
      | [] => .ok (.vals [], m0)
      | e :: rest => do
        let (v, m) ← asVal (← evalT fuel m0 (.expr e))
        let (vs, m) ← asVals (← evalT fuel m (.exprList rest))
        .ok (.vals (v :: vs), m)
    | .stmt s =>
      let m := { m0 with evalCount := m0.evalCount + 1 }
      match s with
      | .declare name dataType isConstant initialValue => do
        let (v, m) ← (match initialValue with
          | some e => do asVal (← evalT fuel m (.expr e))
          | none =>
            let (v, store2) := defaultInitialValue m.store dataType
            .ok (v, { m with store := store2 }))
        let envs2 ← liftE (Environment.define m.store m.envs m.environment name dataType v isConstant)
        .ok (.val .undef, { m with envs := envs2 })
      | .assign target value => do
        let (v, m) ← asVal (← evalT fuel m (.expr value))
        match target with
        | .ident name => do
          let envs2 ← liftE (Environment.assign m.store m.envs m.environment name v)
          .ok (.val .undef, { m with envs := envs2 })
        | .arrayAccess arrayExpr idxExprs => do
          let (arrV, m) ← asVal (← evalT fuel m (.expr arrayExpr))
          let (idxVs, m) ← asVals (← evalT fuel m (.exprList idxExprs))
          -- `Evaluator.setArrayElement`: evaluated values are never
          -- atoms, so only the plain-array branch is reachable; the
          -- write mutates the array object in place.
          match arrV with
          | .ref a =>
            match m.store.get? a with
            | some (.arr _) => do
              let store2 ← liftE (setArrayElementInValue m.store a idxVs v)
              .ok (.val .undef, { m with store := store2 })
            | _ => .error (.thrown (.runtime "Array access on non-array value"))
          | _ => .error (.thrown (.runtime "Array access on non-array value"))
        | .member objExpr field => do
          let (objV, m) ← asVal (← evalT fuel m (.expr objExpr))
          -- evaluated values are never atoms, so the `UserDefinedAtom`
          -- branch of the source is unreachable; a plain object gets the
          -- field set (created if absent), `null` and primitives are a
          -- runtime error.
          match objV with
          | .ref a =>
            match m.store.get? a with
            | some (.record fields) =>
              let fields2 :=
                if (fields.lookup field).isSome then alistSet fields field v
                else fields ++ [(field, v)]
              .ok (.val .undef, { m with store := m.store.set a (.record fields2) })
            | some (.arr _) => .ok (.val .undef, m)
            | none => .ok (.val .undef, m)
          | .date _ => .ok (.val .undef, m)
          | _ => .error (.thrown (.runtime "Cannot access property of non-object"))
        | _ => .error (.thrown (.runtime "Invalid assignment target"))
      | .forStmt loopVar start stop step body => do
        let (startV, m) ← asVal (← evalT fuel m (.expr start))
        let (endV, m) ← asVal (← evalT fuel m (.expr stop))
        let (stepV, m) ← (match step with
          | some e => do asVal (← evalT fuel m (.expr e))
          | none => .ok ((.num 1 : JSVal), m))
        let m ← (if Environment.has m.envs m.environment loopVar then .ok m
          else do
            let envs2 ← liftE (Environment.define m.store m.envs m.environment loopVar (.simple .INTEGER) startV false)
            .ok { m with envs := envs2 })
        let increment := jsGtB stepV (.num 0)
        let m := (← evalT fuel m (.forIter increment endV stepV loopVar body startV)).2
        .ok (.val .undef, m)
      | .procDecl name parameters body => do
        let signature : RoutineSignature := ⟨name, parameters, none⟩
        let routineInfo : RoutineInfo := ⟨signature, some (.procDecl name parameters body), false, none⟩
        let envs2 ← liftE (Environment.defineRoutine m.envs m.environment signature)
        .ok (.val .undef, { m with envs := envs2, globalRoutines := globalsSet m.globalRoutines name routineInfo })
      | .funcDecl name parameters returnType body => do
        let signature : RoutineSignature := ⟨name, parameters, some returnType⟩
        let routineInfo : RoutineInfo := ⟨signature, some (.funcDecl name parameters returnType body), false, none⟩
        let envs2 ← liftE (Environment.defineRoutine m.envs m.environment signature)
        .ok (.val .undef, { m with envs := envs2, globalRoutines := globalsSet m.globalRoutines name routineInfo })
      | .callStmt name args => do
        let (_, m) ← asVal (← evalT fuel m (.callExpr name args))
        .ok (.val .undef, m)
      | .output expressions => do
        let (vs, m) ← asVals (← evalT fuel m (.exprList expressions))
        .ok (.val .undef, { m with out := m.out ++ [String.join (vs.map jsString) ++ "\n"] })
      | .ret value => do
        let (v, m) ← (match value with
          | some e => do asVal (← evalT fuel m (.expr e))
          | none => .ok ((.undef : JSVal), m))
        .ok (.val .undef, { m with context := { m.context with returnValue := v, shouldReturn := true } })
      | .typeDecl name fields => do
        let userType : UserDefinedTypeInfo := ⟨name, fields⟩
        let (objV, store2) := allocRecord m.store []
        let envs2 ← liftE (Environment.define store2 m.envs m.environment name (.user userType) objV true)
        .ok (.val .undef, { m with store := store2, envs := envs2 })
      | .exprStmt e =>
        -- an expression in statement position is the same node; it is
        -- evaluated once, so the count is not bumped twice
        evalT fuel m0 (.expr e)
    | .body ss =>
      match ss with
      | [] => .ok (.val .undef, m0)
      | s :: rest => do
        let (_, m) ← asVal (← evalT fuel m0 (.stmt s))
        if m.context.shouldReturn then .ok (.val .undef, m)
        else evalT fuel m (.body rest)
    | .program ss result =>
      match ss with
      | [] => .ok (.val result, m0)
      | s :: rest => do
        let (r, m) ← asVal (← evalT fuel m0 (.stmt s))
        if m.context.shouldReturn then .ok (.val r, m)
        else evalT fuel m (.program rest r)
    | .forIter increment endV stepV loopVar body current =>
      -- while the condition holds: assign the loop variable, run the body
      -- (stopping the whole loop if should-return was set), then
      -- *re-read the loop variable from the environment* and continue
      -- from that value plus the step
      if (if increment then jsLeB current endV else jsGeB current endV) then do
        let envs2 ← liftE (Environment.assign m0.store m0.envs m0.environment loopVar current)
        let m := { m0 with envs := envs2 }
        let m := (← evalT fuel m (.body body)).2
        if m.context.shouldReturn then .ok (.val .undef, m)
        else do
          let cur2 ← liftE (Environment.get m.envs m.environment loopVar)
          evalT fuel m (.forIter increment endV stepV loopVar body (jsAdd cur2 stepV))
      else .ok (.val .undef, m0)
    | .callExpr routineName args =>
      -- a routine registered as a built-in with an implementation
      -- short-circuits to the native call; everything else takes the
      -- general user-routine path
      (match globalsFind m0.globalRoutines routineName with
      | some info =>
        if info.isBuiltIn && info.impl.isSome then do
          let (argVs, m) ← asVals (← evalT fuel m0 (.exprList args))
          .ok (.val ((info.impl.getD (fun _ => .undef)) argVs), m)
        else evalT fuel m0 (.userCall routineName args)
      | none => evalT fuel m0 (.userCall routineName args))
    | .userCall routineName args => do
      -- look up the signature through the scope chain, evaluate the
      -- arguments, create a child environment *of the current (caller)
      -- environment*, bind the parameters, push a call frame on the
      -- caller context, swap in a fresh context and the new environment,
      -- run the routine body, restore, pop the frame
      let signature ← liftE (Environment.getRoutine m0.envs m0.environment routineName)
      let (argVs, m) ← asVals (← evalT fuel m0 (.exprList args))
      let (envs2, routineEnvIdx) := Environment.createChild m.envs m.environment
      let m := { m with envs := envs2 }
      let envs3 ← liftE (bindParams m.store m.envs routineEnvIdx signature.parameters argVs)
      let m := { m with envs := envs3 }
      let routineContext : ExecutionContext :=
        { envIdx := routineEnvIdx, returnValue := .undef, shouldReturn := false, callStack := [] }
      -- `pushCallFrame` runs on the still-active caller context and the
      -- saved previous context is read afterwards, so it carries the frame
      let previousContext : ExecutionContext :=
        { m.context with callStack := m.context.callStack ++ [⟨routineName, m.environment⟩] }
      let previousEnvironment := m.environment
      let m := { m with context := routineContext, environment := routineEnvIdx }
      let (result, m) ← asVal (← evalT fuel m (.routineNode routineName))
      let m := { m with context := previousContext, environment := previousEnvironment }
      let m := { m with context := { m.context with callStack := m.context.callStack.dropLast } }
      .ok (.val result, m)
    | .routineNode routineName =>
      -- for a FUNCTION the result is whatever the routine context return
      -- slot holds when the body finishes; for a PROCEDURE the result is
      -- left undefined
      match globalsFind m0.globalRoutines routineName with
      | some info =>
        match info.node with
        | some (.procDecl _ _ body) => do
          let m := (← evalT fuel m0 (.body body)).2
          .ok (.val .undef, m)
        | some (.funcDecl _ _ _ body) => do
          let m := (← evalT fuel m0 (.body body)).2
          .ok (.val m.context.returnValue, m)
        | _ => .ok (.val .undef, m0)
      | none => .ok (.val .undef, m0)

/-- `Evaluator.evaluate` on an expression node. -/
def evaluateExpr (fuel : Nat) (m : Machine) (e : Expr) : EvM (JSVal × Machine) := do
  asVal (← evalT fuel m (.expr e))

/-- `Evaluator.evaluate` on a statement node. -/
def evaluateStmt (fuel : Nat) (m : Machine) (s : Stmt) : EvM (JSVal × Machine) := do
  asVal (← evalT fuel m (.stmt s))

/-- The statement loop shared by routine bodies and branches. -/
def runBody (fuel : Nat) (m : Machine) (ss : List Stmt) : EvM Machine := do
  .ok (← evalT fuel m (.body ss)).2

/-- `Evaluator.evaluateProgram`. -/
def evaluateProgram (fuel : Nat) (m : Machine) (ss : List Stmt) (result : JSVal) : EvM (JSVal × Machine) := do
  asVal (← evalT fuel m (.program ss result))

/-- The loop of `Evaluator.evaluateFor` (see `EvTask.forIter`). -/
def forLoopIter (fuel : Nat) (m : Machine) (increment : Bool) (endV stepV : JSVal) (loopVar : String) (body : List Stmt) (current : JSVal) : EvM Machine := do
  .ok (← evalT fuel m (.forIter increment endV stepV loopVar body current)).2

/-- `Evaluator.evaluateCallExpression`. -/
def evaluateCallExpression (fuel : Nat) (m : Machine) (name : String) (args : List Expr) : EvM (JSVal × Machine) := do
  asVal (← evalT fuel m (.callExpr name args))

/-! ### The interpreter driver (`src/interpreter.ts`) -/

/-- `Interpreter.incrementExecutionSteps`: bump the counter and throw once
it exceeds the caller-supplied maximum.  (No evaluation path ever calls
this method.) -/
def incrementExecutionSteps (executionSteps : Nat) (maxExecutionSteps : Nat) : Except PError Nat :=
  let steps := executionSteps + 1
  if steps > maxExecutionSteps then
    .error (.generic ("Maximum execution steps (" ++ toString maxExecutionSteps ++ ") exceeded"))
  else .ok steps

/-- The built-in routine table of `src/runtime/builtin-functions.ts`
(`LEN`), installed by `initializeBuiltInRoutines`. -/
def lenImpl (args : List JSVal) : JSVal :=
  match args.headD .undef with
  | .str s => .num (qOfInt s.length)
  | _ => .undef

def builtInFunctions : List (String × RoutineInfo) :=
  [("LEN", ⟨⟨"LEN", [⟨"str", .simple .STRING, .BY_VALUE⟩], some (.simple .INTEGER)⟩, none, true, some lenImpl⟩)]

/-- The machine at the start of `Interpreter.execute`: one fresh global
environment, an empty heap, the built-in routines, a fresh context. -/
def initialMachine : Machine :=
  { envs := [⟨[], [], none⟩], store := [], globalRoutines := builtInFunctions,
    environment := 0,
    context := { envIdx := 0, returnValue := .undef, shouldReturn := false, callStack := [] },
    out := [], evalCount := 0 }

/-- `ExecutionResult`. -/
structure ExecutionResult where
  success : Bool
  output : Option String
  error : Option PError
  steps : Nat
  deriving DecidableEq, Repr

/-- `Interpreter.execute` on an already-parsed program: evaluate, then
build the result.  `maxExecutionSteps` comes from the caller options; the
step counter is reset to 0 at the start and — since nothing ever calls
`incrementExecutionSteps` — is still 0 in the result, and the maximum is
never consulted.  `none` stands for an execution that did not finish
within the fuel (the real interpreter would still be running).  The second
component is the text the I/O collaborator received (on the error path the
partial output is not tracked here; no theorem observes it). -/
def execute (program : List Stmt) (fuel : Nat) (maxExecutionSteps : Nat) : Option (ExecutionResult × List String) :=
  match evaluateProgram fuel initialMachine program .undef with
  | .ok (result, m) =>
    some ({ success := true,
            output := if result = .undef then none else some (jsString result),
            error := none, steps := 0 }, m.out)
  | .error (.thrown e) =>
    some ({ success := false, output := none, error := some e, steps := 0 }, [])
  | .error .fuelOut => none

/-! ### Tokens (`src/lexer/tokens.ts`) -/

inductive TokType where
  | IF | THEN | ELSE | ENDIF | CASE | ENDCASE | OTHERWISE | FOR | TO | NEXT | STEP
  | WHILE | ENDWHILE | REPEAT | UNTIL | PROCEDURE | ENDPROCEDURE | FUNCTION | ENDFUNCTION
  | DECLARE | CONSTANT | ARRAY | OF | TYPE | ENDTYPE | CLASS | ENDCLASS | INHERITS
  | PUBLIC | PRIVATE | NEW | BYVAL | BYREF | RETURNS | CALL | INPUT | OUTPUT
  | OPENFILE | CLOSEFILE | READFILE | WRITEFILE | SEEK | GETRECORD | PUTRECORD | EOF | FROM
  | INTEGER | REAL | CHAR | STRING | BOOLEAN | DATE
  | INTEGER_LITERAL | REAL_LITERAL | STRING_LITERAL | CHAR_LITERAL | TRUE | FALSE
  | IDENTIFIER
  | PLUS | MINUS | MULTIPLY | DIVIDE | DIV | MOD | EQUAL | NOT_EQUAL | LESS_THAN
  | GREATER_THAN | LESS_EQUAL | GREATER_EQUAL | AND | OR | NOT | ASSIGNMENT
  | LEFT_PAREN | RIGHT_PAREN | LEFT_BRACKET | RIGHT_BRACKET | COMMA | COLON
  | COMMENT | NEWLINE | EOF_TOKEN
  deriving DecidableEq, Repr

/-- `KEYWORD_TOKENS`: the case-insensitive keyword table (looked up after
upper-casing).  Note there is an entry for `RETURNS` but none for
`RETURN`. -/
def KEYWORD_TOKENS : List (String × TokType) :=
  [("IF", .IF), ("THEN", .THEN), ("ELSE", .ELSE), ("ENDIF", .ENDIF),
   ("CASE", .CASE), ("ENDCASE", .ENDCASE), ("OTHERWISE", .OTHERWISE),
   ("FOR", .FOR), ("TO", .TO), ("NEXT", .NEXT), ("STEP", .STEP),
   ("WHILE", .WHILE), ("ENDWHILE", .ENDWHILE), ("REPEAT", .REPEAT), ("UNTIL", .UNTIL),
   ("PROCEDURE", .PROCEDURE), ("ENDPROCEDURE", .ENDPROCEDURE),
   ("FUNCTION", .FUNCTION), ("ENDFUNCTION", .ENDFUNCTION),
   ("DECLARE", .DECLARE), ("CONSTANT", .CONSTANT), ("ARRAY", .ARRAY), ("OF", .OF),
   ("TYPE", .TYPE), ("ENDTYPE", .ENDTYPE), ("CLASS", .CLASS), ("ENDCLASS", .ENDCLASS),
   ("INHERITS", .INHERITS), ("PUBLIC", .PUBLIC), ("PRIVATE", .PRIVATE), ("NEW", .NEW),
   ("BYVAL", .BYVAL), ("BYREF", .BYREF), ("RETURNS", .RETURNS), ("CALL", .CALL),
   ("INPUT", .INPUT), ("OUTPUT", .OUTPUT),
   ("OPENFILE", .OPENFILE), ("CLOSEFILE", .CLOSEFILE), ("READFILE", .READFILE),
   ("WRITEFILE", .WRITEFILE), ("SEEK", .SEEK), ("GETRECORD", .GETRECORD),
   ("PUTRECORD", .PUTRECORD), ("EOF", .EOF), ("FROM", .FROM),
   ("INTEGER", .INTEGER), ("REAL", .REAL), ("CHAR", .CHAR), ("STRING", .STRING),
   ("BOOLEAN", .BOOLEAN), ("DATE", .DATE), ("TRUE", .TRUE), ("FALSE", .FALSE),
   ("AND", .AND), ("OR", .OR), ("NOT", .NOT)]

/-- A token: type, lexeme/value, position.  For number literals the source
stores the parsed number in the (string-typed) value field and the parser
re-parses it, so storing the numeral text is observationally equivalent. -/
structure Tok where
  type : TokType
  value : String
  line : Nat
  column : Nat
  deriving DecidableEq, Repr

/-! ### Lexer (`src/lexer/lexer.ts`) -/

structure LexState where
  source : List Char
  tokens : List Tok
  start : Nat
  current : Nat
  line : Nat
  column : Nat

namespace Lexer

/-- `source.charAt(i)` (out of range reads as a null character; every use
below is in range or explicitly guarded, as in the source). -/
def charAt (cs : List Char) (i : Nat) : Char := cs.getD i (Char.ofNat 0)

def isAtEnd (st : LexState) : Bool := st.current ≥ st.source.length

/-- `advance()`: consume and return the next character. -/
def advance (st : LexState) : Char × LexState :=
  (charAt st.source st.current, { st with current := st.current + 1, column := st.column + 1 })

def peek (st : LexState) : Char :=
  if isAtEnd st then Char.ofNat 0 else charAt st.source st.current

def peekNext (st : LexState) : Char :=
  if st.current + 1 ≥ st.source.length then Char.ofNat 0 else charAt st.source (st.current + 1)

/-- `match(expected)`: conditional consume. -/
def matchC (expected : Char) (st : LexState) : Bool × LexState :=
  if isAtEnd st then (false, st)
  else if charAt st.source st.current ≠ expected then (false, st)
  else (true, { st with current := st.current + 1, column := st.column + 1 })

def substring (st : LexState) (b e : Nat) : String :=
  ⟨(st.source.drop b).take (e - b)⟩

/-- `addToken(type, value?)`: the stored value is `value || text`, so an
empty-string value falls back to the lexeme text (quotes included). -/
def addToken (st : LexState) (type : TokType) (value : Option String) : LexState :=
  let text := substring st st.start st.current
  let v := match value with
    | some s => if s = "" then text else s
    | none => text
  { st with tokens := st.tokens ++ [⟨type, v, st.line, st.column - text.length⟩] }

/-- `String.prototype.toUpperCase` on ASCII (the only characters the
keyword lookup meets). -/
def charUpper (c : Char) : Char :=
  if Char.ofNat 97 ≤ c ∧ c ≤ Char.ofNat 122 then Char.ofNat (c.toNat - 32) else c

def toUpperStr (s : String) : String := ⟨s.data.map charUpper⟩

def isDigit (c : Char) : Bool := decide (Char.ofNat 48 ≤ c ∧ c ≤ Char.ofNat 57)

def isAlpha (c : Char) : Bool :=
  decide (Char.ofNat 97 ≤ c ∧ c ≤ Char.ofNat 122) ||
  decide (Char.ofNat 65 ≤ c ∧ c ≤ Char.ofNat 90) ||
  decide (c = Char.ofNat 95)

def isAlphaNumeric (c : Char) : Bool := isAlpha c || isDigit c

/-- The scan loop of `string()` (newlines inside the literal bump the line
counter). -/
def stringLoop : Nat → LexState → LexState
  | 0, st => st
  | fuel + 1, st =>
    if peek st ≠ Char.ofNat 34 ∧ ¬ isAtEnd st then
      let st := if peek st = Char.ofNat 10 then { st with line := st.line + 1, column := 1 } else st
      stringLoop fuel (advance st).2
    else st

/-- `string()`: scan to the closing quote; hitting the end of input is an
unterminated-string syntax error; the token value is the text between the
quotes. -/
def stringTok (st : LexState) : Except PError LexState :=
  let st := stringLoop (st.source.length + 1) st
  if isAtEnd st then .error (.synErr "Unterminated string" st.line st.column)
  else
    let st := (advance st).2
    let value := substring st (st.start + 1) (st.current - 1)
    .ok (addToken st .STRING_LITERAL (some value))

/-- `character()`: one character then the closing quote.  (Note the
source only raises the unterminated error when *not* at the end of input,
and advances past the end otherwise — translated faithfully.) -/
def characterTok (st : LexState) : Except PError LexState :=
  if isAtEnd st then .error (.synErr "Unterminated character literal" st.line st.column)
  else
    let (value, st) := advance st
    if peek st ≠ Char.ofNat 39 ∧ ¬ isAtEnd st then
      .error (.synErr "Unterminated character literal" st.line st.column)
    else
      let st := (advance st).2
      .ok (addToken st .CHAR_LITERAL (some (String.singleton value)))

def digitsLoop : Nat → LexState → LexState
  | 0, st => st
  | fuel + 1, st =>
    if isDigit (peek st) then digitsLoop fuel (advance st).2 else st

/-- `number()`: digits, and a fractional part iff a point is followed by a
digit; the token is REAL iff the lexeme contains a point. -/
def number (st : LexState) : LexState :=
  let st := digitsLoop (st.source.length + 1) st
  let st :=
    if peek st = Char.ofNat 46 ∧ isDigit (peekNext st) then
      digitsLoop (st.source.length + 1) (advance st).2
    else st
  let value := substring st st.start st.current
  if value.data.contains (Char.ofNat 46) then addToken st .REAL_LITERAL (some value)
  else addToken st .INTEGER_LITERAL (some value)

def identLoop : Nat → LexState → LexState
  | 0, st => st
  | fuel + 1, st =>
    if isAlphaNumeric (peek st) then identLoop fuel (advance st).2 else st

/-- `identifier()`: keyword lookup on the upper-cased lexeme, identifier
otherwise (casing preserved). -/
def identifier (st : LexState) : LexState :=
  let st := identLoop (st.source.length + 1) st
  let text := substring st st.start st.current
  match KEYWORD_TOKENS.lookup (toUpperStr text) with
  | some t => addToken st t none
  | none => addToken st .IDENTIFIER (some text)

/-- The comment branch of `scanToken` (`// Comments`): skip to the end of
the line.  This branch is DEAD CODE in the source: the `switch` statement
already has a `case` for the same character earlier (emitting DIVIDE), and
JavaScript executes the first matching case. -/
def commentLoop : Nat → LexState → LexState
  | 0, st => st
  | fuel + 1, st =>
    if peek st ≠ Char.ofNat 10 ∧ ¬ isAtEnd st then commentLoop fuel (advance st).2
    else st

/-- `scanToken()`: one token (or skipped whitespace/comment).  The
branches appear in the order of the source `switch`; since JavaScript
executes the first matching `case`, the *second* branch for a slash (the
comment handler) is unreachable, and a slash always lexes as DIVIDE. -/
def scanToken (st : LexState) : Except PError LexState :=
  let (c, st) := advance st
  if c = '(' then .ok (addToken st .LEFT_PAREN none)
  else if c = ')' then .ok (addToken st .RIGHT_PAREN none)
  else if c = '[' then .ok (addToken st .LEFT_BRACKET none)
  else if c = ']' then .ok (addToken st .RIGHT_BRACKET none)
  else if c = ',' then .ok (addToken st .COMMA none)
  else if c = ':' then .ok (addToken st .COLON none)
  else if c = '+' then .ok (addToken st .PLUS none)
  else if c = '-' then
    let (mt, st) := matchC '>' st
    if mt then .ok (addToken st .ASSIGNMENT none) else .ok (addToken st .MINUS none)
  else if c = '*' then .ok (addToken st .MULTIPLY none)
  else if c = '/' then .ok (addToken st .DIVIDE none)
  else if c = '=' then .ok (addToken st .EQUAL none)
  else if c = '<' then
    let (mt, st) := matchC '=' st
    if mt then .ok (addToken st .LESS_EQUAL none)
    else
      let (mt, st) := matchC '>' st
      if mt then .ok (addToken st .NOT_EQUAL none)
      else
        let (mt, st) := matchC '-' st
        if mt then .ok (addToken st .ASSIGNMENT none)
        else .ok (addToken st .LESS_THAN none)
  else if c = '>' then
    let (mt, st) := matchC '=' st
    if mt then .ok (addToken st .GREATER_EQUAL none) else .ok (addToken st .GREATER_THAN none)
  else if c = ' ' ∨ c = Char.ofNat 13 ∨ c = Char.ofNat 9 then .ok st
  else if c = Char.ofNat 10 then
    .ok { addToken st .NEWLINE none with line := st.line + 1, column := 1 }
  else if c = '/' then
    -- dead code: the earlier DIVIDE case already matched this character
    let (mt, st) := matchC '/' st
    if mt then .ok (commentLoop (st.source.length + 1) st)
    else .ok (addToken st .DIVIDE none)
  else if c = Char.ofNat 34 then stringTok st
  else if c = Char.ofNat 39 then characterTok st
  else if isDigit c then .ok (number st)
  else if isAlpha c then .ok (identifier st)
  else .error (.synErr ("Unexpected character: " ++ String.singleton c) st.line st.column)

/-- The scan loop of `tokenize()`. -/
def scanLoop : Nat → LexState → Except PError LexState
  | 0, _ => .error (.generic "lexer fuel exhausted")
  | fuel + 1, st =>
    if isAtEnd st then .ok st
    else do
      let st := { st with start := st.current }
      let st2 ← scanToken st
      scanLoop fuel st2

/-- `Lexer.tokenize`: scan the whole input text and append the EOF
token. -/
def tokenize (source : String) : Except PError (List Tok) := do
  let st0 : LexState :=
    { source := source.data, tokens := [], start := 0, current := 0, line := 1, column := 1 }
  let st ← scanLoop (source.data.length + 1) st0
  .ok (st.tokens ++ [⟨.EOF_TOKEN, "", st.line, st.column⟩])

end Lexer

/-! ### Parser (`src/parser/parser.ts`)

The statement-level skeleton needed by the claims: the full expression
precedence chain (logical-or > logical-and > equality > comparison >
additive > multiplicative > unary > primary, left-associative), the
DECLARE, OUTPUT and RETURN statement parsers, `assignmentOrExpression-
Statement`, and — the part under verification — `statement()` with its
try/catch that synchronizes and then *rethrows*, and `parse()` which
propagates the first error.  The statement parsers for
IF/CASE/FOR/WHILE/REPEAT/PROCEDURE/FUNCTION/CALL/INPUT/file
operations/TYPE/CLASS are outside the modelled fragment (a token stream
reaching one of those keywords in statement position gets a generic
"outside the fragment" error); no theorem feeds them.  Error messages drop
the quote characters around interpolated symbols. -/

structure PState where
  tokens : List Tok
  current : Nat

namespace Parser

/-- Out-of-range token access (the parser only runs on EOF-terminated
streams, where this does not occur). -/
def defaultTok : Tok := ⟨.EOF_TOKEN, "", 0, 0⟩

def peek (st : PState) : Tok := st.tokens.getD st.current defaultTok

def previous (st : PState) : Tok := st.tokens.getD (st.current - 1) defaultTok

def isAtEnd (st : PState) : Bool := (peek st).type = .EOF_TOKEN

def advance (st : PState) : Tok × PState :=
  if ¬ isAtEnd st then
    let st := { st with current := st.current + 1 }
    (previous st, st)
  else (previous st, st)

def check (t : TokType) (st : PState) : Bool :=
  if isAtEnd st then false else (peek st).type = t

def matchT (t : TokType) (st : PState) : Bool × PState :=
  if check t st then (true, (advance st).2) else (false, st)

/-- Try a list of token types in order (the `match(A) || match(B)` loops
of the precedence chain). -/
def matchAny (ts : List TokType) (st : PState) : Bool × PState :=
  match ts with
  | [] => (false, st)
  | t :: rest =>
    let (b, st2) := matchT t st
    if b then (true, st2) else matchAny rest st2

/-- `error(token, message)`: a SyntaxError bound to the token. -/
def mkError (token : Tok) (message : String) : PError :=
  .synErr message token.line token.column

def consume (t : TokType) (message : String) (st : PState) : Except (PError × PState) (Tok × PState) :=
  if check t st then .ok (advance st) else .error (mkError (peek st) message, st)

def consumeLike (ts : List TokType) (message : String) (st : PState) : Except (PError × PState) (Tok × PState) :=
  if ts.contains (peek st).type then .ok (advance st) else .error (mkError (peek st) message, st)

def consumeNewline (st : PState) : PState := (matchT .NEWLINE st).2

/-- The statement keywords `synchronize` stops at. -/
def syncKeyword : TokType → Bool
  | .DECLARE | .IF | .FOR | .WHILE | .REPEAT | .PROCEDURE | .FUNCTION
  | .INPUT | .OUTPUT | .OPENFILE | .CLOSEFILE | .RETURNS | .CALL => true
  | _ => false

def syncLoop : Nat → PState → PState
  | 0, st => st
  | fuel + 1, st =>
    if ¬ isAtEnd st then
      if (previous st).type = .NEWLINE then st
      else if syncKeyword (peek st).type then st
      else syncLoop fuel (advance st).2
    else st

/-- `synchronize()`: advance, then skip to just after a NEWLINE or to the
next statement keyword. -/
def synchronize (st : PState) : PState :=
  syncLoop (st.tokens.length + 1) (advance st).2

/-- `parseInt(s, 10)` on a lexer-produced digit string. -/
def parseIntLex (s : String) : ℤ := ((digitsVal s.data none).getD 0 : ℤ)

/-- `parseFloat(s)` on a lexer-produced numeral. -/
def parseFloatLex (s : String) : Q := (parseUnsignedDec s.data).getD 0

/-- `parseDataType()`: only the six built-in type tokens are accepted
(`consumeLike`), each mapping to its `PseudocodeType`; the user-defined
default of the source switch is unreachable through `consumeLike`. -/
def parseDataType (st : PState) : Except (PError × PState) (PType × PState) := do
  let (token, st) ← consumeLike [.STRING, .CHAR, .INTEGER, .REAL, .BOOLEAN, .DATE]
    ("Expected data type, found " ++ (peek st).value) st
  let typeName := Lexer.toUpperStr token.value
  if typeName = "INTEGER" then .ok (.simple .INTEGER, st)
  else if typeName = "REAL" then .ok (.simple .REAL, st)
  else if typeName = "CHAR" then .ok (.simple .CHAR, st)
  else if typeName = "STRING" then .ok (.simple .STRING, st)
  else if typeName = "BOOLEAN" then .ok (.simple .BOOLEAN, st)
  else if typeName = "DATE" then .ok (.simple .DATE, st)
  else .ok (.user ⟨typeName, []⟩, st)

end Parser

/-- The levels of the precedence chain. -/
inductive ELevel where
  | lOr | lAnd | equality | comparison | term | factor
  deriving DecidableEq, Repr

def levelOps : ELevel → List TokType
  | .lOr => [.OR]
  | .lAnd => [.AND]
  | .equality => [.EQUAL, .NOT_EQUAL]
  | .comparison => [.GREATER_THAN, .GREATER_EQUAL, .LESS_THAN, .LESS_EQUAL]
  | .term => [.PLUS, .MINUS]
  | .factor => [.MULTIPLY, .DIVIDE, .DIV, .MOD]

/-- Expression-parsing tasks (the mutually recursive expression functions
of the source packed into one fuel-indexed function, for the same
kernel-reduction reason as the evaluator). -/
inductive ETask where
  /-- `expression()` (an alias for the top level) -/
  | expr
  /-- one precedence level: parse the next level then loop on operators -/
  | level (l : ELevel)
  /-- the while-match loop of one level, carrying the left operand -/
  | loop (l : ELevel) (left : Expr)
  /-- `unary()` -/
  | unaryT
  /-- `primary()` -/
  | primary
  /-- the `do expression() while (match(COMMA))` loops (call arguments,
  array indices, OUTPUT expression lists) -/
  | argsLoop (acc : List Expr)

/-- An expression task returns one expression or a list. -/
inductive PExprRes where
  | one (e : Expr)
  | many (es : List Expr)

def nextOf : ELevel → ETask
  | .lOr => .level .lAnd
  | .lAnd => .level .equality
  | .equality => .level .comparison
  | .comparison => .level .term
  | .term => .level .factor
  | .factor => .unaryT

def asOne : PExprRes × PState → Except (PError × PState) (Expr × PState)
  | (.one e, st) => .ok (e, st)
  | (.many _, st) => .error (.generic "expected one expression", st)

def asMany : PExprRes × PState → Except (PError × PState) (List Expr × PState)
  | (.many es, st) => .ok (es, st)
  | (.one _, st) => .error (.generic "expected an expression list", st)

/-- The expression precedence chain
(`expression`/`logicalOr`/.../`unary`/`primary`). -/
def parseE : Nat → ETask → PState → Except (PError × PState) (PExprRes × PState)
  | 0, _, st => .error (.generic "parser fuel exhausted", st)
  | fuel + 1, task, st =>
    match task with
    | .expr => parseE fuel (.level .lOr) st
    | .level l => do
      let (e, st) ← asOne (← parseE fuel (nextOf l) st)
      parseE fuel (.loop l e) st
    | .loop l left =>
      let (b, st2) := Parser.matchAny (levelOps l) st
      if b then do
        let operator := (Parser.previous st2).value
        let (right, st3) ← asOne (← parseE fuel (nextOf l) st2)
        parseE fuel (.loop l (.binary operator left right)) st3
      else .ok (.one left, st2)
    | .unaryT =>
      let (b, st2) := Parser.matchAny [.MINUS, .NOT] st
      if b then do
        let operator := (Parser.previous st2).value
        let (right, st3) ← asOne (← parseE fuel .unaryT st2)
        .ok (.one (.unary operator right), st3)
      else parseE fuel .primary st2
    | .argsLoop acc => do
      let (e, st) ← asOne (← parseE fuel .expr st)
      let (b, st) := Parser.matchT .COMMA st
      if b then parseE fuel (.argsLoop (acc ++ [e])) st
      else .ok (.many (acc ++ [e]), st)
    | .primary =>
      let (b, st2) := Parser.matchT .TRUE st
      if b then .ok (.one (.lit (.bool true)), st2) else
      let (b, st2) := Parser.matchT .FALSE st2
      if b then .ok (.one (.lit (.bool false)), st2) else
      let (b, st2) := Parser.matchT .INTEGER_LITERAL st2
      if b then .ok (.one (.lit (.num (qOfInt (Parser.parseIntLex (Parser.previous st2).value)))), st2) else
      let (b, st2) := Parser.matchT .REAL_LITERAL st2
      if b then .ok (.one (.lit (.num (Parser.parseFloatLex (Parser.previous st2).value))), st2) else
      let (b, st2) := Parser.matchT .STRING_LITERAL st2
      if b then .ok (.one (.lit (.str (Parser.previous st2).value)), st2) else
      let (b, st2) := Parser.matchT .CHAR_LITERAL st2
      if b then .ok (.one (.lit (.str (Parser.previous st2).value)), st2) else
      let (b, st2) := Parser.matchT .IDENTIFIER st2
      if b then
        let name := (Parser.previous st2).value
        let (bp, st3) := Parser.matchT .LEFT_PAREN st2
        if bp then do
          if Parser.check .RIGHT_PAREN st3 then do
            let (_, st4) ← Parser.consume .RIGHT_PAREN "Expected ) after arguments" st3
            .ok (.one (.call name []), st4)
          else do
            let (args, st4) ← asMany (← parseE fuel (.argsLoop []) st3)
            let (_, st5) ← Parser.consume .RIGHT_PAREN "Expected ) after arguments" st4
            .ok (.one (.call name args), st5)
        else
          let (bb, st3) := Parser.matchT .LEFT_BRACKET st3
          if bb then do
            let (indices, st4) ← asMany (← parseE fuel (.argsLoop []) st3)
            let (_, st5) ← Parser.consume .RIGHT_BRACKET "Expected ] after array indices" st4
            .ok (.one (.arrayAccess (.ident name) indices), st5)
          else .ok (.one (.ident name), st3)
      else
      let (b, st2) := Parser.matchT .LEFT_PAREN st2
      if b then do
        let (e, st3) ← asOne (← parseE fuel .expr st2)
        let (_, st4) ← Parser.consume .RIGHT_PAREN "Expected ) after expression" st3
        .ok (.one e, st4)
      else
      let (b, st2) := Parser.matchT .NEW st2
      if b then do
        let (classNameToken, st3) ← Parser.consume .IDENTIFIER "Expected class name after NEW" st2
        let (_, st4) ← Parser.consume .LEFT_PAREN "Expected ( after class name" st3
        if Parser.check .RIGHT_PAREN st4 then do
          let (_, st5) ← Parser.consume .RIGHT_PAREN "Expected ) after arguments" st4
          .ok (.one (.newExpr classNameToken.value []), st5)
        else do
          let (args, st5) ← asMany (← parseE fuel (.argsLoop []) st4)
          let (_, st6) ← Parser.consume .RIGHT_PAREN "Expected ) after arguments" st5
          .ok (.one (.newExpr classNameToken.value args), st6)
      else .error (Parser.mkError (Parser.peek st2) "Expected expression", st2)

namespace Parser

/-- The dimensions loop of `declareStatement` (each dimension must be a
numeric literal). -/
def dimsLoop : Nat → Nat → PState → List ℤ → Except (PError × PState) (List ℤ × PState)
  | 0, _, st, _ => .error (.generic "parser fuel exhausted", st)
  | fuel + 1, efuel, st, acc =>
    if ¬ check .RIGHT_BRACKET st then do
      let (e, st) ← asOne (← parseE efuel .expr st)
      match e with
      | .lit (.num q) =>
        let (b, st) := matchT .COMMA st
        if b then dimsLoop fuel efuel st (acc ++ [qFloor q])
        else .ok (acc ++ [qFloor q], st)
      | _ => .error (mkError (peek st) "Array dimensions must be integer literals", st)
    else .ok (acc, st)

/-- `declareStatement()`.  For an array, the source stores the literal
`dimensions` list in a field of that name and casts the object to
`ArrayTypeInfo` — whose `bounds` field is therefore left undefined
(modelled as the empty bounds list). -/
def declareStatement (efuel : Nat) (st : PState) : Except (PError × PState) (Stmt × PState) := do
  let (nameToken, st) ← consume .IDENTIFIER "Expected variable name" st
  let (_, st) ← consume .COLON "Expected : after variable name, before data type" st
  let (dataType, st) ← (do
    let (b, st) := matchT .ARRAY st
    if b then do
      let (_, st) ← consume .OF "Expected OF after ARRAY" st
      let (elementType, st) ← parseDataType st
      let (_, st) ← consume .LEFT_BRACKET "Expected [ for array dimensions" st
      let (_, st) ← dimsLoop (st.tokens.length + 1) efuel st []
      let (_, st) ← consume .RIGHT_BRACKET "Expected ] after array dimensions" st
      let elemSimple := match elementType with
        | .simple s => s
        | _ => SimpleType.INTEGER
      .ok ((.arrayInfo ⟨elemSimple, []⟩ : PType), st)
    else parseDataType st)
  let (b, st) := matchT .ASSIGNMENT st
  if b then .error (.generic "Assignment not allowed in DECLARE statement", st)
  else
    let st := consumeNewline st
    .ok (.declare nameToken.value dataType false none, st)

/-- `outputStatement()`. -/
def outputStatement (efuel : Nat) (st : PState) : Except (PError × PState) (Stmt × PState) := do
  if ¬ check .NEWLINE st then do
    let (expressions, st) ← asMany (← parseE efuel (.argsLoop []) st)
    let st := consumeNewline st
    .ok (.output expressions, st)
  else
    let st := consumeNewline st
    .ok (.output [], st)

/-- `returnStatement()` (reached from the RETURNS token; the word RETURN
is not in the keyword table and lexes as an identifier). -/
def returnStatement (efuel : Nat) (st : PState) : Except (PError × PState) (Stmt × PState) := do
  if ¬ check .NEWLINE st then do
    let (value, st) ← asOne (← parseE efuel .expr st)
    let st := consumeNewline st
    .ok (.ret (some value), st)
  else
    let st := consumeNewline st
    .ok (.ret none, st)

/-- `assignmentOrExpressionStatement()`: an expression, optionally
followed by `<-` and a value; a bare call expression becomes a call
statement, any other bare expression is an expression statement. -/
def assignmentOrExpressionStatement (efuel : Nat) (st : PState) : Except (PError × PState) (Stmt × PState) := do
  let (e, st) ← asOne (← parseE efuel .expr st)
  let (b, st) := matchT .ASSIGNMENT st
  if b then do
    let (value, st) ← asOne (← parseE efuel .expr st)
    let st := consumeNewline st
    .ok (.assign e value, st)
  else
    let st := consumeNewline st
    match e with
    | .call name args => .ok (.callStmt name args, st)
    | _ => .ok (.exprStmt e, st)

/-- The statement kinds whose parsers are outside the modelled
fragment. -/
def unmodelledKeyword : TokType → Bool
  | .IF | .CASE | .FOR | .WHILE | .REPEAT | .PROCEDURE | .FUNCTION | .CALL
  | .INPUT | .OPENFILE | .CLOSEFILE | .READFILE | .WRITEFILE | .SEEK
  | .GETRECORD | .PUTRECORD | .TYPE | .CLASS => true
  | _ => false

def skipNewlines : Nat → PState → PState
  | 0, st => st
  | fuel + 1, st =>
    let (b, st2) := matchT .NEWLINE st
    if b then skipNewlines fuel st2 else st2

/-- The try-body of `statement()`: skip newlines, dispatch on the leading
token.  Keyword order follows the source. -/
def statementInner (efuel : Nat) (st : PState) : Except (PError × PState) (Option Stmt × PState) := do
  let st := skipNewlines (st.tokens.length + 1) st
  if isAtEnd st then .ok (none, st)
  else
    let (b, st2) := matchT .DECLARE st
    if b then do
      let (s, st3) ← declareStatement efuel st2
      .ok (some s, st3)
    else if unmodelledKeyword (peek st2).type then
      .error (.generic "statement kind outside the modelled fragment", st2)
    else
      let (b, st2) := matchT .OUTPUT st2
      if b then do
        let (s, st3) ← outputStatement efuel st2
        .ok (some s, st3)
      else
        let (b, st2) := matchT .RETURNS st2
        if b then do
          let (s, st3) ← returnStatement efuel st2
          .ok (some s, st3)
        else do
          let (s, st3) ← assignmentOrExpressionStatement efuel st2
          .ok (some s, st3)

/-- `statement()`: the catch handler around `statementInner` — on any
inner error it *synchronizes* (advancing to the next statement boundary)
and then *rethrows* a SyntaxError carrying the inner message and the
position of the token at the resynchronization point.  The recovery
machinery runs, but its result is discarded by the rethrow. -/
def statement (efuel : Nat) (st : PState) : Except (PError × PState) (Option Stmt × PState) :=
  match statementInner efuel st with
  | .ok r => .ok r
  | .error (e, st2) =>
    let st3 := synchronize st2
    .error (.synErr (errMessage e) (peek st3).line (peek st3).column, st3)

/-- The statement loop of `parse()`: any statement error propagates
out, aborting the whole parse. -/
def parseLoop : Nat → Nat → PState → List Stmt → Except (PError × PState) (List Stmt × PState)
  | 0, _, st, _ => .error (.generic "parser fuel exhausted", st)
  | fuel + 1, efuel, st, acc =>
    if ¬ isAtEnd st then do
      let (stmtOpt, st) ← statement efuel st
      parseLoop fuel efuel st (acc ++ stmtOpt.toList)
    else .ok (acc, st)

/-- `Parser.parse`: the whole token stream to a program body; the first
statement error aborts the parse with no AST at all. -/
def parse (tokens : List Tok) : Except PError (List Stmt) :=
  let efuel := tokens.length * 8 + 32
  match parseLoop (tokens.length + 1) efuel ⟨tokens, 0⟩ [] with
  | .ok (p, _) => .ok p
  | .error (e, _) => .error e

end Parser

/-! ### Concrete programs and observation helpers used by the claim
theorems -/

/-- The text written to the I/O collaborator by a successful run. -/
def runOut (prog : List Stmt) (fuel : Nat) : Option (List String) :=
  match evaluateProgram fuel initialMachine prog .undef with
  | .ok (_, m) => some m.out
  | _ => none

/-- The parent pointers of every scope created by a successful run, in
creation order. -/
def runParents (prog : List Stmt) (fuel : Nat) : Option (List (Option Nat)) :=
  match evaluateProgram fuel initialMachine prog .undef with
  | .ok (_, m) => some (m.envs.map (fun e => e.parent))
  | _ => none

/-- The number of `evaluate()` invocations a successful run performs. -/
def runCount (prog : List Stmt) (fuel : Nat) : Option Nat :=
  match evaluateProgram fuel initialMachine prog .undef with
  | .ok (_, m) => some m.evalCount
  | _ => none

/-- The token stream of a source text (empty on a lexer error; the claim
programs all lex). -/
def toksOf (s : String) : List Tok :=
  match Lexer.tokenize s with
  | .ok ts => ts
  | .error _ => []

/-- Lex then parse, as `Interpreter.execute` does before evaluating. -/
def parseSrc (s : String) : Except PError (List Stmt) := Parser.parse (toksOf s)

/-- C9: FOR i <- 1 TO 5 : OUTPUT i : NEXT i. -/
def progA : List Stmt :=
  [.forStmt "i" (.lit (.num 1)) (.lit (.num 5)) none [.output [.ident "i"]]]

/-- C9: FOR i <- 5 TO 1 STEP -1 : OUTPUT i : NEXT i. -/
def progB : List Stmt :=
  [.forStmt "i" (.lit (.num 5)) (.lit (.num 1)) (some (.lit (.num (-1)))) [.output [.ident "i"]]]

/-- C9: the body increments the loop variable itself, so the loop skips
(i <- i + 1 inside FOR i <- 1 TO 5). -/
def progC : List Stmt :=
  [.forStmt "i" (.lit (.num 1)) (.lit (.num 5)) none
    [.assign (.ident "i") (.binary "+" (.ident "i") (.lit (.num 1))), .output [.ident "i"]]]

/-- C10: Inner (defined at top level, reading the free name y) is called
from Outer, whose local y is 42; under lexical scoping the call would fail
(y is not in scope at the definition site). -/
def progScope : List Stmt :=
  [.procDecl "Inner" [] [.output [.ident "y"]],
   .procDecl "Outer" [] [.declare "y" (.simple .INTEGER) false none,
                         .assign (.ident "y") (.lit (.num 42)),
                         .callStmt "Inner" []],
   .callStmt "Outer" []]

/-- C10: the same Inner called directly from the top level, where the
scope chain of its definition site holds no y. -/
def progScopeDirect : List Stmt :=
  [.procDecl "Inner" [] [.output [.ident "y"]],
   .callStmt "Inner" []]

/-- C6: a FUNCTION whose body never executes RETURN, called as an
expression. -/
def progFn : List Stmt :=
  [.funcDecl "F" [] (.simple .INTEGER) [.output [.lit (.num 1)]],
   .output [.call "F" []]]

/-- C6: a PROCEDURE whose body executes RETURN 42, called as an
expression. -/
def progPr : List Stmt :=
  [.procDecl "P" [] [.ret (some (.lit (.num 42)))],
   .output [.call "P" []]]

/-- C6: a FUNCTION whose body executes RETURN 42. -/
def progFn2 : List Stmt :=
  [.funcDecl "G" [] (.simple .INTEGER) [.ret (some (.lit (.num 42)))],
   .output [.call "G" []]]

/-- C5: a record is passed BYVAL and the callee mutates a field of the
parameter. -/
def pointT : UserDefinedTypeInfo := ⟨"Point", []⟩

def progAlias : List Stmt :=
  [.typeDecl "Point" [],
   .declare "p" (.user pointT) false none,
   .assign (.member (.ident "p") "x") (.lit (.num 10)),
   .procDecl "P" [⟨"q", .user pointT, .BY_VALUE⟩] [.assign (.member (.ident "q") "x") (.lit (.num 99))],
   .callStmt "P" [.ident "p"],
   .output [.member (.ident "p") "x"]]

/-- C5: a scalar is passed BYREF and the callee reassigns the
parameter. -/
def progScalar : List Stmt :=
  [.declare "a" (.simple .INTEGER) false none,
   .assign (.ident "a") (.lit (.num 10)),
   .procDecl "P" [⟨"x", .simple .INTEGER, .BY_REFERENCE⟩] [.assign (.ident "x") (.lit (.num 99))],
   .callStmt "P" [.ident "a"],
   .output [.ident "a"]]

/-- C3: a three-statement program (six evaluated nodes). -/
def prog3 : List Stmt :=
  [.output [.lit (.num 1)], .output [.lit (.num 2)], .output [.lit (.num 3)]]

/-- C7: CONSTANT PI = 3.14 followed by PI <- 1. -/
def progConst : List Stmt :=
  [.declare "PI" (.simple .REAL) true (some (.lit (.num ⟨157, 50⟩))),
   .assign (.ident "PI") (.lit (.num 1))]

/-- C1: the backing storage `createEmptyArray` allocates for
ARRAY[3:5] OF INTEGER — three holes. -/
def arr3 : List JSVal := [.undef, .undef, .undef]

/-- C6: the outcome of evaluating RETURN 42 on the fresh machine — the
context return slot and should-return flag afterwards. -/
def retProbe : Option (JSVal × Bool) :=
  match evalT 5 initialMachine (.stmt (.ret (some (.lit (.num 42))))) with
  | .ok (_, m) => some (m.context.returnValue, m.context.shouldReturn)
  | _ => none

/-- C7: the atom CONSTANT PI = 3.14 creates. -/
def atomPI : VariableAtom := ⟨.simple .REAL, .num ⟨157, 50⟩, true⟩

/-- C7: a one-scope environment holding the constant PI. -/
def envsPI : Envs := [⟨[("PI", atomPI)], [], none⟩]

/-- C9: a one-scope environment holding the loop variable i = 1. -/
def envsI : Envs := [⟨[("i", ⟨.simple .INTEGER, .num 1, false⟩)], [], none⟩]

/-- C9: the fresh machine with i in scope. -/
def mForWitness : Machine := { initialMachine with envs := envsI }

/-- C10: the signature of a parameterless procedure Inner. -/
def sigInner : RoutineSignature := ⟨"Inner", [], none⟩

/-- C10: Inner with an empty body, as registered by its declaration. -/
def infoInner : RoutineInfo := ⟨sigInner, some (.procDecl "Inner" [] []), false, none⟩

/-- C10: a machine in whose global scope Inner is declared. -/
def mC10 : Machine :=
  { envs := [⟨[], [("Inner", sigInner)], none⟩], store := [],
    globalRoutines := [("Inner", infoInner)], environment := 0,
    context := ⟨0, .undef, false, []⟩, out := [], evalCount := 0 }

/-- C10: the machine as Inner starts running — one new scope appended,
parented to the global (caller) scope. -/
def mC10run : Machine := { mC10 with envs := mC10.envs ++ [⟨[], [], some 0⟩], context := ⟨1, .undef, false, []⟩, environment := 1 }

/-! ## Claim theorems

Support lemmas first (value-level bridges between the fraction type and
Mathlib integers/rationals, and the operator-dispatch equations), then one
theorem per claim with its counterexample and witness where applicable. -/

set_option maxRecDepth 100000

theorem jsLtB_int (i j : ℤ) : jsLtB (.num (qOfInt i)) (.num (qOfInt j)) = decide (i < j) := by
  simp [jsLtB, jsToNumber, qLtB, qOfInt]

theorem jsGtB_int (i j : ℤ) : jsGtB (.num (qOfInt i)) (.num (qOfInt j)) = decide (j < i) := by
  simp [jsGtB, jsToNumber, qLtB, qOfInt]

/-- Over a positive denominator, truncation toward zero agrees with
integer truncated division. -/
theorem qTrunc_pos_den (n d : ℤ) (hd : 0 < d) : qTrunc ⟨n, d⟩ = Int.tdiv n d := by
  simp only [qTrunc, qCeil, qNeg, qFloor]
  by_cases hn : 0 ≤ n
  · simp only [hn, if_pos]
    exact (Int.tdiv_eq_ediv hn hd.le).symm
  · simp only [hn, if_neg, not_false_iff]
    have h2 : (0 : ℤ) ≤ -n := by omega
    have h3 : Int.tdiv (-n) d = -n / d := Int.tdiv_eq_ediv h2 hd.le
    have h4 : Int.tdiv n d = -(Int.tdiv (-n) d) := by
      rw [Int.neg_tdiv, neg_neg]
    omega

theorem qDiv_int (a b : ℤ) (hb : b ≠ 0) :
    qDiv (qOfInt a) (qOfInt b) = if 0 ≤ b then ⟨a, b⟩ else ⟨-a, -b⟩ := by
  simp [qDiv, qOfInt, hb]

theorem qFloor_pos_den_eq_ratFloor (n d : ℤ) (hd : 0 < d) :
    qFloor ⟨n, d⟩ = ⌊(n : ℚ) / (d : ℚ)⌋ := by
  have h1 : ((d.toNat : ℤ)) = d := Int.toNat_of_nonneg hd.le
  have h2 := Rat.floor_intCast_div_natCast n d.toNat
  unfold qFloor
  rw [show ((d.toNat : ℕ) : ℚ) = (d : ℚ) by exact_mod_cast congrArg (fun z : ℤ => (z : ℚ)) h1] at h2
  rw [h2, h1]

/-- `Math.floor` of an integer quotient is the rational floor. -/
theorem qFloor_qDiv_int (a b : ℤ) (hb : b ≠ 0) :
    qFloor (qDiv (qOfInt a) (qOfInt b)) = ⌊(a : ℚ) / (b : ℚ)⌋ := by
  rw [qDiv_int a b hb]
  by_cases h : 0 ≤ b
  · simp only [h, if_pos]
    exact qFloor_pos_den_eq_ratFloor a b (lt_of_le_of_ne h (Ne.symm hb))
  · simp only [h, if_neg, not_false_iff]
    have hb2 : (0 : ℤ) < -b := by omega
    rw [qFloor_pos_den_eq_ratFloor (-a) (-b) hb2]
    congr 1
    push_cast
    rw [neg_div_neg_eq]

theorem qTrunc_qDiv_int (a b : ℤ) (hb : b ≠ 0) :
    qTrunc (qDiv (qOfInt a) (qOfInt b)) = Int.tdiv a b := by
  rw [qDiv_int a b hb]
  by_cases h : 0 ≤ b
  · simp only [h, if_pos]
    exact qTrunc_pos_den a b (lt_of_le_of_ne h (Ne.symm hb))
  · simp only [h, if_neg, not_false_iff]
    rw [qTrunc_pos_den (-a) (-b) (by omega)]
    exact Int.neg_tdiv_neg a b

/-- The JavaScript `%` on integer operands is the truncated remainder. -/
theorem jsRem_int (a b : ℤ) (hb : b ≠ 0) :
    jsRem (qOfInt a) (qOfInt b) = qOfInt (a - b * Int.tdiv a b) := by
  unfold jsRem
  rw [qTrunc_qDiv_int a b hb]
  simp [qSub, qMul, qOfInt]

/-- The `DIV` case of the operator dispatch. -/
theorem evalBinDIV (store : List Obj) (l r : JSVal) :
    evaluateBinaryOp store "DIV" l r =
      (if (jsToNumber r).elim false qIsZero then .error .divByZero
       else .ok (match jsToNumber l, jsToNumber r with
                 | some a, some b => .num (qOfInt (qFloor (qDiv a b)))
                 | _, _ => .nan)) := by rfl

/-- The `MOD` case of the operator dispatch. -/
theorem evalBinMOD (store : List Obj) (l r : JSVal) :
    evaluateBinaryOp store "MOD" l r =
      (if (jsToNumber r).elim false qIsZero then .error .divByZero
       else .ok (match jsToNumber l, jsToNumber r with
                 | some a, some b => .num (jsRem a b)
                 | _, _ => .nan)) := by rfl

/-- The `/` case of the operator dispatch. -/
theorem evalBinSlash (store : List Obj) (l r : JSVal) :
    evaluateBinaryOp store "/" l r =
      (if (jsToNumber r).elim false qIsZero then .error .divByZero
       else .ok (match jsToNumber l, jsToNumber r with
                 | some a, some b => .num (qDiv a b)
                 | _, _ => .nan)) := by rfl

/-- Claim C1, counterexample.  For ARRAY[3:5] OF INTEGER the interpreter
allocates a backing array of 5−3+1 = 3 elements, and the access-time
bounds check of `getArrayElementFromValue` compares the raw subscript
against that storage length: the declared-range subscript 5 (which the
claim says succeeds) raises Index-out-of-bounds, while the
out-of-declared-range subscript 1 (which the claim says raises) reads
element 0 and succeeds. -/
theorem C1_counterexample :
    createEmptyArray [] ⟨.INTEGER, [⟨3, 5⟩]⟩ = (.ref 0, [.arr arr3]) ∧
    getArrayElementFromValue [] arr3 [.num 5] = .error (.indexErr "Array index out of bounds: 5") ∧
    getArrayElementFromValue [] arr3 [.num 1] = .ok .undef := by
  refine ⟨by simp [createEmptyArray, createEmptyArrayF, arr3], by decide, by decide⟩

/-- Claim C1 (amended): for an integer subscript i, array reads and writes
succeed exactly when 1 ≤ i ≤ length of the backing storage (which holds
U−L+1 elements for a declaration ARRAY[L:U]) — the check is 1-based with
respect to the storage, independent of the declared lower bound — and a
subscript outside that range raises Index-out-of-bounds at access time. -/
theorem C1_bounds_storage_relative :
    (∀ (store : List Obj) (array : List JSVal) (i : ℤ),
      getArrayElementFromValue store array [.num (qOfInt i)] =
        (if i < 1 ∨ (array.length : ℤ) < i then
          .error (.indexErr ("Array index out of bounds: " ++ jsString (.num (qOfInt i))))
        else .ok (jsElemAt array (qSub (qOfInt i) 1)))) ∧
    (∀ (store : List Obj) (addr : Nat) (i : ℤ) (v : JSVal),
      setArrayElementInValue store addr [.num (qOfInt i)] v =
        (match store.get? addr with
         | some (.arr array) =>
           if i < 1 ∨ (array.length : ℤ) < i then
             .error (.indexErr ("Array index out of bounds: " ++ jsString (.num (qOfInt i))))
           else .ok (store.set addr (.arr (jsElemSet array (qSub (qOfInt i) 1) v)))
         | _ => .error (.generic "TypeError: array object expected"))) ∧
    (∀ (store : List Obj) (t : SimpleType) (L U : ℤ),
      createEmptyArray store ⟨t, [⟨L, U⟩]⟩ =
        (.ref store.length, store ++ [.arr (List.replicate (U - L + 1).toNat .undef)])) := by
  refine ⟨?_, ?_, ?_⟩
  · intro store array i
    have h1 : (qOfInt 1 : Q) = (1 : Q) := rfl
    simp only [getArrayElementFromValue, ← h1, jsLtB_int, jsGtB_int, jsToNumber]
    by_cases h : i < 1 ∨ (array.length : ℤ) < i
    · rcases h with h | h <;> simp [h]
    · push_neg at h
      simp [not_lt.mpr h.1, not_lt.mpr h.2, h]
  · intro store addr i v
    have h1 : (qOfInt 1 : Q) = (1 : Q) := rfl
    simp only [setArrayElementInValue, ← h1, jsLtB_int, jsGtB_int, jsToNumber]
    match hs : store.get? addr with
    | none => rfl
    | some (.record f) => rfl
    | some (.arr array) =>
      by_cases h : i < 1 ∨ (array.length : ℤ) < i
      · rcases h with h | h <;> simp [h]
      · push_neg at h
        simp [not_lt.mpr h.1, not_lt.mpr h.2, h]
  · intro store t L U
    simp [createEmptyArray, createEmptyArrayF]

/-- Claim C2, counterexample.  At a = −7, b = 2 the interpreter computes
−7 MOD 2 = −1 (the JavaScript truncated remainder), while the claimed
identity a − b·⌊a/b⌋ gives 1. -/
theorem C2_counterexample :
    evaluateBinaryOp [] "MOD" (.num (qOfInt (-7))) (.num (qOfInt 2)) = .ok (.num (qOfInt (-1))) ∧
    (-7 : ℤ) - 2 * ⌊((-7 : ℚ)) / (2 : ℚ)⌋ = 1 ∧ ((-1 : ℤ) ≠ 1) := by
  refine ⟨by decide, ?_, by decide⟩
  have h := Rat.floor_intCast_div_natCast (-7) 2
  push_cast at h
  rw [h]
  decide

/-- Claim C2 (amended): for integers a, b with b ≠ 0, `a DIV b` evaluates
to ⌊a/b⌋ and `a MOD b` to the truncated remainder a − b·trunc(a/b) (the
JavaScript `%`, taking the sign of the dividend, not a − b·⌊a/b⌋); and for
every left operand, `/`, `DIV` and `MOD` with right operand 0 raise
Division-by-zero. -/
theorem C2_div_mod_semantics (store : List Obj) (a b : ℤ) (hb : b ≠ 0) (l : JSVal) :
    evaluateBinaryOp store "DIV" (.num (qOfInt a)) (.num (qOfInt b)) =
      .ok (.num (qOfInt ⌊(a : ℚ) / (b : ℚ)⌋)) ∧
    evaluateBinaryOp store "MOD" (.num (qOfInt a)) (.num (qOfInt b)) =
      .ok (.num (qOfInt (a - b * Int.tdiv a b))) ∧
    evaluateBinaryOp store "/" l (.num (qOfInt 0)) = .error .divByZero ∧
    evaluateBinaryOp store "DIV" l (.num (qOfInt 0)) = .error .divByZero ∧
    evaluateBinaryOp store "MOD" l (.num (qOfInt 0)) = .error .divByZero := by
  have hz : (jsToNumber (.num (qOfInt b))).elim false qIsZero = false := by
    simp [jsToNumber, qIsZero, qOfInt, hb]
  refine ⟨?_, ?_, ?_, ?_, ?_⟩
  · rw [evalBinDIV, hz]
    simp [jsToNumber, qFloor_qDiv_int a b hb]
  · rw [evalBinMOD, hz]
    simp [jsToNumber, jsRem_int a b hb]
  · rw [evalBinSlash]
    simp [jsToNumber, qIsZero, qOfInt]
  · rw [evalBinDIV]
    simp [jsToNumber, qIsZero, qOfInt]
  · rw [evalBinMOD]
    simp [jsToNumber, qIsZero, qOfInt]

/-- Witness for C2 at store = [], a = −7, b = 2, left operand 5. -/
theorem C2_div_mod_semantics_witness :
    evaluateBinaryOp [] "DIV" (.num (qOfInt (-7))) (.num (qOfInt 2)) =
      .ok (.num (qOfInt ⌊((-7 : ℤ) : ℚ) / ((2 : ℤ) : ℚ)⌋)) ∧
    evaluateBinaryOp [] "MOD" (.num (qOfInt (-7))) (.num (qOfInt 2)) =
      .ok (.num (qOfInt ((-7) - 2 * Int.tdiv (-7) 2))) ∧
    evaluateBinaryOp [] "/" (.num (qOfInt 5)) (.num (qOfInt 0)) = .error .divByZero ∧
    evaluateBinaryOp [] "DIV" (.num (qOfInt 5)) (.num (qOfInt 0)) = .error .divByZero ∧
    evaluateBinaryOp [] "MOD" (.num (qOfInt 5)) (.num (qOfInt 0)) = .error .divByZero :=
  C2_div_mod_semantics [] (-7) 2 (by decide) (.num (qOfInt 5))

/-- Claim C3, counterexample.  `prog3` evaluates six AST nodes; with
`maxExecutionSteps = 0` the claim requires a fatal, unsuccessful result,
but execution succeeds with no error. -/
theorem C3_counterexample :
    (execute prog3 50 0).map (fun r => (r.1.success, r.1.error)) = some (true, none) ∧
    runCount prog3 50 = some 6 := by
  exact ⟨by decide, by decide⟩

/-- Claim C3 (amended): the interpreter never increments or checks the
step counter during evaluation — `execute` is independent of the
caller-supplied maximum, the counter it reports is always the reset value
0, and the guard `incrementExecutionSteps` (which would throw once the
counter exceeded the maximum) is dead code with no caller. -/
theorem C3_step_limit_ignored (program : List Stmt) (fuel max1 max2 steps max3 : Nat) :
    execute program fuel max1 = execute program fuel max2 ∧
    (execute program fuel max1).elim True (fun r => r.1.steps = 0) ∧
    incrementExecutionSteps steps max3 =
      (if steps + 1 > max3 then
        .error (.generic ("Maximum execution steps (" ++ toString max3 ++ ") exceeded"))
      else .ok (steps + 1)) := by
  refine ⟨rfl, ?_, rfl⟩
  unfold execute
  match hev : evaluateProgram fuel initialMachine program .undef with
  | .ok (result, m) => simp
  | .error (.thrown e) => simp
  | .error .fuelOut => simp

/-- Claim C4 (code bug).  The second `case '/'` of `scanToken` — the one
that would skip a `//` line comment — is unreachable behind the first
`case '/'`, which always emits a DIVIDE token; a source line containing
`//` therefore lexes to two DIVIDE tokens followed by ordinary tokens for
the comment text, instead of the comment being skipped (as the claim, the
specification and the repository lexer tests all state). -/
theorem C4_comment_not_skipped :
    (Lexer.tokenize "// x").map (fun ts => ts.map (fun t => t.type)) =
      .ok [.DIVIDE, .DIVIDE, .IDENTIFIER, .EOF_TOKEN] ∧
    (Lexer.tokenize "DECLARE x : INTEGER // This is a comment").map (fun ts => ts.map (fun t => t.type)) =
      .ok [.DECLARE, .IDENTIFIER, .COLON, .INTEGER, .DIVIDE, .DIVIDE,
           .IDENTIFIER, .IDENTIFIER, .IDENTIFIER, .IDENTIFIER, .EOF_TOKEN] := by
  exact ⟨by decide, by decide⟩

/-- Claim C5, counterexample.  `progAlias` passes a record BYVAL and the
callee assigns 99 to a field of the parameter; the caller then observes
99 — a callee mutation of a parameter element visible to the caller,
which the claim says never happens. -/
theorem C5_counterexample : runOut progAlias 80 = some ["99\n"] := by decide

/-- Claim C5 (amended): parameter binding defines the parameter name to
the evaluated argument value by the same call for BYVAL and BYREF (the
declared mode is ignored), so reassigning the parameter is never visible
to the caller (`progScalar` still observes 10); but object values are
shared references, so mutating an array or record element through the
parameter IS visible to the caller (`progAlias` observes 99). -/
theorem C5_param_binding :
    (∀ (store : List Obj) (envs : Envs) (idx : Nat) (p : ParameterInfo) (arg : JSVal),
      bindParam store envs idx p arg = Environment.define store envs idx p.name p.type arg false) ∧
    (∀ (store : List Obj) (envs : Envs) (idx : Nat) (p : ParameterInfo) (arg : JSVal),
      bindParam store envs idx { p with mode := .BY_VALUE } arg =
        bindParam store envs idx { p with mode := .BY_REFERENCE } arg) ∧
    runOut progScalar 80 = some ["10\n"] ∧
    runOut progAlias 80 = some ["99\n"] := by
  refine ⟨?_, ?_, by decide, by decide⟩
  · intro store envs idx p arg
    exact ite_self _
  · intro store envs idx p arg
    exact (ite_self _).trans (ite_self _).symm

/-- Claim C6, counterexample.  The FUNCTION F of `progFn` never executes
RETURN, yet its frame is popped and the call yields `undefined` (the claim
requires a populated return value before the pop); and a RETURN inside a
PROCEDURE does populate the context return slot (the claim says a
procedure frame never populates it). -/
theorem C6_counterexample :
    runOut progFn 60 = some ["1\n", "undefined\n"] ∧
    retProbe = some (.num 42, true) := by
  exact ⟨by decide, by decide⟩

/-- Claim C6 (amended): a RETURN statement populates the context return
slot whatever the routine kind; nothing enforces population before the
frame is popped.  A FUNCTION call yields whatever the slot holds when the
body finishes (`undefined` when no RETURN ran, the returned value
otherwise), and a PROCEDURE call always yields `undefined`, discarding its
slot. -/
theorem C6_return_slot (fuel : Nat) (m : Machine) (name nm : String)
    (ps : List ParameterInfo) (rt : PType) (body : List Stmt) :
    evalT (fuel + 1) { m with globalRoutines := [(name, ⟨⟨name, ps, none⟩, some (.procDecl nm ps body), false, none⟩)] } (.routineNode name) =
      Except.map (fun r => (EvOutVal.val .undef, r.2))
        (evalT fuel { m with globalRoutines := [(name, ⟨⟨name, ps, none⟩, some (.procDecl nm ps body), false, none⟩)] } (.body body)) ∧
    evalT (fuel + 1) { m with globalRoutines := [(name, ⟨⟨name, ps, some rt⟩, some (.funcDecl nm ps rt body), false, none⟩)] } (.routineNode name) =
      Except.map (fun r => (EvOutVal.val r.2.context.returnValue, r.2))
        (evalT fuel { m with globalRoutines := [(name, ⟨⟨name, ps, some rt⟩, some (.funcDecl nm ps rt body), false, none⟩)] } (.body body)) ∧
    runOut progFn 60 = some ["1\n", "undefined\n"] ∧
    runOut progFn2 60 = some ["42\n"] ∧
    runOut progPr 60 = some ["undefined\n"] := by
  refine ⟨?_, ?_, by decide, by decide, by decide⟩
  · simp only [evalT, globalsFind, List.lookup, beq_self_eq_true]
    cases hb : evalT fuel { m with globalRoutines := [(name, ⟨⟨name, ps, none⟩, some (.procDecl nm ps body), false, none⟩)] } (.body body) with
    | ok r => simp [hb, Except.map, Except.bind, bind]
    | error e => simp [hb, Except.map, Except.bind, bind]
  · simp only [evalT, globalsFind, List.lookup, beq_self_eq_true]
    cases hb : evalT fuel { m with globalRoutines := [(name, ⟨⟨name, ps, some rt⟩, some (.funcDecl nm ps rt body), false, none⟩)] } (.body body) with
    | ok r => simp [hb, Except.map, Except.bind, bind]
    | error e => simp [hb, Except.map, Except.bind, bind]

/-- Claim C7: once a constant is defined, the outward walk of
`Environment.assign` finds its atom, sees the constant flag and raises the
Runtime error (returning no updated environment, so the stored value is
untouched); the atom value setter independently refuses as well; and the
whole program CONSTANT PI = 3.14 followed by PI <- 1 fails with exactly
that Runtime error. -/
theorem C7_constant_assignment (fuel : Nat) (store : List Obj) (envs : Envs) (i : Nat)
    (name : String) (value : JSVal) (atom : VariableAtom)
    (hfind : Environment.findAtomFuel fuel envs i name = some atom)
    (hconst : atom.isConstant = true) :
    Environment.assignFuel fuel store envs i name value =
      .error (.runtime ("Cannot assign to constant " ++ name)) ∧
    atomSetValue store atom value = .error (.runtime "Cannot assign to constant") ∧
    (execute progConst 50 0).map (fun r => (r.1.success, r.1.error)) =
      some (false, some (.runtime "Cannot assign to constant PI")) := by
  refine ⟨?_, ?_, by decide⟩
  · revert hfind
    induction fuel generalizing i with
    | zero =>
      intro hfind
      simp [Environment.findAtomFuel] at hfind
    | succ fuel ih =>
      intro hfind
      rw [Environment.findAtomFuel] at hfind
      rw [Environment.assignFuel]
      match he : envs.get? i with
      | none => rw [he] at hfind; exact absurd hfind (by simp)
      | some e =>
        rw [he] at hfind
        simp only [] at hfind
        match hv : e.vars.lookup name with
        | some a =>
          simp only [hv] at hfind
          have ha : a = atom := by injection hfind
          subst ha
          simp [he, hv, hconst]
        | none =>
          simp only [hv] at hfind
          match hp : e.parent with
          | some p =>
            simp only [hp] at hfind
            simp [he, hv, hp]
            exact ih p hfind
          | none => simp [hp] at hfind
  · unfold atomSetValue
    simp [hconst]

/-- Witness for C7: the environment holding CONSTANT PI = 3.14, assigning
1 to PI. -/
theorem C7_constant_assignment_witness :
    Environment.assignFuel 2 [] envsPI 0 "PI" (.num 1) =
      .error (.runtime ("Cannot assign to constant " ++ "PI")) ∧
    atomSetValue [] atomPI (.num 1) = .error (.runtime "Cannot assign to constant") ∧
    (execute progConst 50 0).map (fun r => (r.1.success, r.1.error)) =
      some (false, some (.runtime "Cannot assign to constant PI")) :=
  C7_constant_assignment 2 [] envsPI 0 "PI" (.num 1) atomPI (by decide) (by decide)

/-- Claim C8: an error inside a statement makes `statement()` synchronize
and rethrow a SyntaxError carrying the inner message and the position of
the resynchronization point; `parse()` then propagates it, so the whole
parse aborts on the first erroneous statement and no AST (partial or
otherwise) is produced — demonstrated end-to-end on a stream whose first
statement is broken and whose second is well-formed. -/
theorem C8_parse_abort (efuel lfuel : Nat) (st st2 : PState) (acc : List Stmt) (e : PError)
    (hin : Parser.statementInner efuel st = .error (e, st2))
    (hend : Parser.isAtEnd st = false) :
    Parser.statement efuel st =
      .error (.synErr (errMessage e) (Parser.peek (Parser.synchronize st2)).line
        (Parser.peek (Parser.synchronize st2)).column, Parser.synchronize st2) ∧
    Parser.parseLoop (lfuel + 1) efuel st acc =
      .error (.synErr (errMessage e) (Parser.peek (Parser.synchronize st2)).line
        (Parser.peek (Parser.synchronize st2)).column, Parser.synchronize st2) ∧
    parseSrc "DECLARE x\nOUTPUT 1" =
      .error (.synErr "Expected : after variable name, before data type" 2 1) ∧
    parseSrc "OUTPUT 1" = .ok [.output [.lit (.num (qOfInt 1))]] := by
  have hstmt : Parser.statement efuel st =
      .error (.synErr (errMessage e) (Parser.peek (Parser.synchronize st2)).line
        (Parser.peek (Parser.synchronize st2)).column, Parser.synchronize st2) := by
    unfold Parser.statement
    rw [hin]
  refine ⟨hstmt, ?_, by rfl, by rfl⟩
  unfold Parser.parseLoop
  simp [hend, hstmt, Except.bind, bind]

/-- Witness for C8 at the token stream of DECLARE x ⏎ OUTPUT 1 (the colon
of the DECLARE is missing). -/
theorem C8_parse_abort_witness :
    Parser.statement 88 ⟨toksOf "DECLARE x\nOUTPUT 1", 0⟩ =
      .error (.synErr (errMessage (PError.synErr "Expected : after variable name, before data type" 1 10))
        (Parser.peek (Parser.synchronize ⟨toksOf "DECLARE x\nOUTPUT 1", 2⟩)).line
        (Parser.peek (Parser.synchronize ⟨toksOf "DECLARE x\nOUTPUT 1", 2⟩)).column,
        Parser.synchronize ⟨toksOf "DECLARE x\nOUTPUT 1", 2⟩) ∧
    Parser.parseLoop 7 88 ⟨toksOf "DECLARE x\nOUTPUT 1", 0⟩ [] =
      .error (.synErr (errMessage (PError.synErr "Expected : after variable name, before data type" 1 10))
        (Parser.peek (Parser.synchronize ⟨toksOf "DECLARE x\nOUTPUT 1", 2⟩)).line
        (Parser.peek (Parser.synchronize ⟨toksOf "DECLARE x\nOUTPUT 1", 2⟩)).column,
        Parser.synchronize ⟨toksOf "DECLARE x\nOUTPUT 1", 2⟩) ∧
    parseSrc "DECLARE x\nOUTPUT 1" =
      .error (.synErr "Expected : after variable name, before data type" 2 1) ∧
    parseSrc "OUTPUT 1" = .ok [.output [.lit (.num (qOfInt 1))]] :=
  C8_parse_abort 88 6 ⟨toksOf "DECLARE x\nOUTPUT 1", 0⟩ ⟨toksOf "DECLARE x\nOUTPUT 1", 2⟩ []
    (PError.synErr "Expected : after variable name, before data type" 1 10) (by rfl) (by rfl)

/-- Claim C9: a FOR loop runs its body once per value from start to end
inclusive (1 TO 5 outputs 1..5, 5 TO 1 STEP −1 outputs 5..1), and at the
end of an iteration the next loop value is `Environment.get` of the loop
variable plus the step — re-read from the environment, not a private
counter — so a body mutation of the loop variable changes the next
iteration (`progC` outputs 2, 4, 6). -/
theorem C9_for_loop (fuel : Nat) (m m2 : Machine) (envs2 : Envs) (increment : Bool)
    (endV stepV cur2 : JSVal) (loopVar : String) (body : List Stmt) (current : JSVal)
    (bv : EvOutVal)
    (hcond : (if increment then jsLeB current endV else jsGeB current endV) = true)
    (hassign : Environment.assign m.store m.envs m.environment loopVar current = .ok envs2)
    (hbody : evalT fuel { m with envs := envs2 } (.body body) = .ok (bv, m2))
    (hnoret : m2.context.shouldReturn = false)
    (hget : Environment.get m2.envs m2.environment loopVar = .ok cur2) :
    evalT (fuel + 1) m (.forIter increment endV stepV loopVar body current) =
      evalT fuel m2 (.forIter increment endV stepV loopVar body (jsAdd cur2 stepV)) ∧
    runOut progA 50 = some ["1\n", "2\n", "3\n", "4\n", "5\n"] ∧
    runOut progB 50 = some ["5\n", "4\n", "3\n", "2\n", "1\n"] ∧
    runOut progC 60 = some ["2\n", "4\n", "6\n"] := by
  refine ⟨?_, by decide, by decide, by decide⟩
  simp only [evalT]
  simp [hcond, liftE, hassign, hbody, hnoret, hget, Except.bind, bind]

/-- Witness for C9: one iteration of an empty-bodied FOR i from 1 TO 2 on
a machine with i in scope. -/
theorem C9_for_loop_witness :
    evalT 4 mForWitness (.forIter true (.num 2) (.num 1) "i" [] (.num 1)) =
      evalT 3 mForWitness (.forIter true (.num 2) (.num 1) "i" [] (jsAdd (.num 1) (.num 1))) ∧
    runOut progA 50 = some ["1\n", "2\n", "3\n", "4\n", "5\n"] ∧
    runOut progB 50 = some ["5\n", "4\n", "3\n", "2\n", "1\n"] ∧
    runOut progC 60 = some ["2\n", "4\n", "6\n"] :=
  C9_for_loop 3 mForWitness mForWitness envsI true (.num 2) (.num 1) (.num 1) "i" [] (.num 1)
    (.val .undef) (by rfl) (by rfl) (by rfl) (by rfl) (by rfl)

/-- Claim C10, counterexample.  Inner reads the free name y and is defined
at the top level, where no y is ever in scope — calling it directly
indeed fails with Undefined variable y, so under the claimed lexical
scoping the call from Outer would fail identically; instead that call
prints Outer's local y (42): the name resolved through the calling
routine's environment. -/
theorem C10_counterexample :
    runOut progScope 60 = some ["42\n"] ∧
    (execute progScopeDirect 60 0).map (fun r => (r.1.success, r.1.error)) =
      some (false, some (.runtime "Undefined variable y")) := by
  exact ⟨by decide, by decide⟩

/-- Claim C10 (amended): the environment created for a callee is a child
of the CALLER's current environment — `createChild` parents the new scope
to its receiver and `evaluateCallExpression` invokes it on the active
(caller) environment — i.e. dynamic, not lexical, scoping; in `progScope`
the scope created for Inner (index 2) has parent 1, the scope of the call
to Outer, although Inner was defined in scope 0. -/
theorem C10_dynamic_scoping (fuel : Nat) (m m1 m4 : Machine) (name : String)
    (args : List Expr) (argVs : List JSVal) (sig : RoutineSignature) (envs3 : Envs)
    (result : JSVal)
    (hsig : Environment.getRoutine m.envs m.environment name = .ok sig)
    (hargs : evalT fuel m (.exprList args) = .ok (.vals argVs, m1))
    (hbind : bindParams m1.store (m1.envs ++ [⟨[], [], some m1.environment⟩])
      m1.envs.length sig.parameters argVs = .ok envs3)
    (hrun : evalT fuel { m1 with envs := envs3, context := ⟨m1.envs.length, .undef, false, []⟩, environment := m1.envs.length } (.routineNode name) = .ok (.val result, m4)) :
    evalT (fuel + 1) m (.userCall name args) =
      .ok (.val result, { m4 with context := m1.context, environment := m1.environment }) ∧
    (∀ (envs : Envs) (i : Nat),
      (Environment.createChild envs i).1.get? (Environment.createChild envs i).2 =
        some ⟨[], [], some i⟩) ∧
    runParents progScope 60 = some [none, some 0, some 1] ∧
    runOut progScope 60 = some ["42\n"] := by
  refine ⟨?_, ?_, by decide, by decide⟩
  · simp only [evalT]
    simp [hsig, hargs, liftE, Environment.createChild, hbind, hrun, Except.bind, bind,
      asVals, asVal, List.dropLast_concat]
  · intro envs i
    simp [Environment.createChild, List.get?_eq_getElem?, List.getElem?_concat_length]

/-- Witness for C10: Inner called on the machine where it is declared at
the global scope. -/
theorem C10_dynamic_scoping_witness :
    evalT 4 mC10 (.userCall "Inner" []) =
      .ok (.val .undef, { mC10run with context := mC10.context, environment := mC10.environment }) ∧
    (∀ (envs : Envs) (i : Nat),
      (Environment.createChild envs i).1.get? (Environment.createChild envs i).2 =
        some ⟨[], [], some i⟩) ∧
    runParents progScope 60 = some [none, some 0, some 1] ∧
    runOut progScope 60 = some ["42\n"] :=
  C10_dynamic_scoping 3 mC10 mC10 mC10run "Inner" [] [] sigInner
    (mC10.envs ++ [⟨[], [], some 0⟩]) .undef (by rfl) (by rfl) (by rfl) (by rfl)

end VibeCpc
